import Mathlib

/-!
Verification development for the pymanifold schematic-to-constraint pipeline
(src/pymanifold.py).  The Python data model is shallowly embedded: Python
values become the inductive `PVal`, NetworkX graph state becomes `DiGraph`,
each stateful method becomes a function `Schematic → Schematic × Option PyError`
(returning the state at exit together with the raised exception, if any),
and the external collaborators (the `translate` rule module, the `constants`
fluid table, and the dReal decision procedure) are passed in as parameters,
since they are not part of the source under verification.
-/

namespace PyManifold

/-- A Python value as used by the parameter-validation and attribute machinery:
booleans, ints, floats (modelled as rationals), strings and None. -/
inductive PVal where
  | bool (b : Bool)
  | int (n : Int)
  | float (q : ℚ)
  | str (s : String)
  | none
deriving DecidableEq

/-- Python truthiness (`if not param`): False, 0, 0.0, "" and None are falsy. -/
def PVal.truthy : PVal → Bool
  | .bool b => b
  | .int n => decide (n ≠ 0)
  | .float q => decide (q ≠ 0)
  | .str s => decide (s ≠ "")
  | .none => false

/-- Numeric view of a Python value: bools are ints (`isinstance(True, int)`),
ints embed into the rationals used for floats. -/
def PVal.toNum : PVal → Option ℚ
  | .bool b => some (if b then 1 else 0)
  | .int n => some (n : ℚ)
  | .float q => some q
  | _ => Option.none

/-- `isinstance(v, str)`. -/
def PVal.isStr : PVal → Bool
  | .str _ => true
  | _ => false

/-- `isinstance(v, int) or isinstance(v, float)` (True/False are ints). -/
def PVal.isNum : PVal → Bool
  | .bool _ => true
  | .int _ => true
  | .float _ => true
  | _ => false

/-- Python `==` on these values: numeric types compare by value
(False == 0, True == 1), strings by content, mixed types are unequal. -/
def pyEq (a b : PVal) : Bool :=
  match a.toNum, b.toNum with
  | some x, some y => decide (x = y)
  | _, _ =>
    match a, b with
    | .str s, .str t => decide (s = t)
    | .none, .none => true
    | _, _ => false

/-- Python `a < b`: defined for two numbers or two strings; anything else
raises TypeError, rendered here as `none`. -/
def pyLt (a b : PVal) : Option Bool :=
  match a.toNum, b.toNum with
  | some x, some y => some (decide (x < y))
  | _, _ =>
    match a, b with
    | .str s, .str t => some (decide (s < t))
    | _, _ => Option.none

/-- Python `s.lower()` (ASCII case folding suffices for the kind tags used). -/
def strLower (s : String) : String := String.mk (s.data.map Char.toLower)

/-- Python `a in b` on strings: substring containment. -/
def pyStrIn (a b : String) : Bool := decide (a.data <:+: b.data)

/-- The exceptions the source can raise. -/
inductive PyError where
  | typeError (msg : String)
  | valueError (msg : String)
  | keyError (key : String)
  | attributeError (msg : String)
  | indexError (msg : String)
deriving DecidableEq

/-- One insertion into a Python dict displayed as an ordered association list:
an existing key (under Python `==`) keeps its position (and original key
object) and has its value replaced, a new key is appended. -/
def dictInsert (d : List (PVal × String)) (k : PVal) (v : String) : List (PVal × String) :=
  if d.any (fun p => pyEq p.1 k) then d.map (fun p => if pyEq p.1 k then (p.1, v) else p)
  else d ++ [(k, v)]

/-- A Python dict literal `{k1: v1, ..., kn: vn}` built left to right;
duplicate keys collapse onto the first occurrence, keeping the last value.
The `user_provided_params` dicts of the source are keyed by the parameter
VALUES (with the declared kind tag as the dict value), so this collapsing
is observable behaviour. -/
def mkDict (l : List (PVal × String)) : List (PVal × String) :=
  l.foldl (fun d p => dictInsert d p.1 p.2) []

/-- `Schematic.validate_params` (src/pymanifold.py:83-127): iterates the
items of the params dict; a falsy value is skipped; tag "string" demands a
str; tag "number" demands int/float; tag "negative number" rejects values
`> 0`; tag "positive number" rejects values `< 0`, with a comparison that
fails on non-numbers raising TypeError.  Returns the first raised exception,
or `none` when validation passes. -/
def validate_params : List (PVal × String) → String → String → Option PyError
  | [], _, _ => Option.none
  | (param, value) :: rest, component, name =>
    if param.truthy = false then validate_params rest component name
    else if value = "string" then
      if param.isStr = false then
        some (PyError.typeError (component ++ " " ++ name ++ " param must be a string"))
      else validate_params rest component name
    else if value = "number" then
      if param.isNum = false then
        some (PyError.typeError (component ++ " " ++ name ++ " parameter must be int or float"))
      else validate_params rest component name
    else if value = "negative number" then
      match pyLt (PVal.int 0) param with
      | some true => some (PyError.valueError (component ++ " " ++ name ++ " parameter must be >= 0"))
      | some false => validate_params rest component name
      | Option.none => some (PyError.typeError (component ++ " " ++ name ++ " parameter must be int or float"))
    else if value = "positive number" then
      match pyLt param (PVal.int 0) with
      | some true => some (PyError.valueError (component ++ " " ++ name ++ " parameter must be >= 0"))
      | some false => validate_params rest component name
      | Option.none => some (PyError.typeError (component ++ " " ++ name ++ " parameter must be int or float"))
    else validate_params rest component name

/-- An attribute value stored in the NetworkX graph or in the produced IR:
a dReal symbolic `Variable` (identified by its name), a plain Python value,
a Python list (the per-analyte fluid data), a Python dict (the empty
`graph` entry of node-link data), or a solved `(lb, ub)` interval pair. -/
inductive Attr where
  | var (name : String)
  | val (v : PVal)
  | pylist (l : List PVal)
  | pydict (l : List (String × PVal))
  | interval (lb ub : ℚ)
deriving DecidableEq

/-- `isinstance(value, Variable)`. -/
def Attr.isVar : Attr → Bool
  | .var _ => true
  | _ => false

/-- An attribute dictionary (string-keyed Python dict, insertion ordered). -/
abbrev AttrDict := List (String × Attr)

/-- Python `d[k]` lookup (first matching key). -/
def attrLookup : AttrDict → String → Option Attr
  | [], _ => Option.none
  | (k0, a) :: rest, k => if k = k0 then some a else attrLookup rest k

/-- Python `d[k] = a`: replace in place, or append a new key. -/
def attrSet : AttrDict → String → Attr → AttrDict
  | [], k, a => [(k, a)]
  | (k0, a0) :: rest, k, a =>
    if k0 = k then (k0, a) :: rest else (k0, a0) :: attrSet rest k a

/-- The NetworkX `DiGraph`: insertion-ordered named nodes and ordered-pair
keyed edges, each with an attribute dict. -/
structure DiGraph where
  nodes : List (String × AttrDict)
  edges : List ((String × String) × AttrDict)
deriving DecidableEq

def DiGraph.nodeMem (g : DiGraph) (n : String) : Bool := g.nodes.any (fun p => p.1 = n)

def DiGraph.edgeMem (g : DiGraph) (e : String × String) : Bool := g.edges.any (fun p => p.1 = e)

/-- `G.add_node(n)`: a no-op when the node exists, else appends it with an
empty attribute dict. -/
def DiGraph.addNode (g : DiGraph) (n : String) : DiGraph :=
  if g.nodeMem n then g else { g with nodes := g.nodes ++ [(n, [])] }

/-- `G.add_edge(u, v)`: implicitly adds missing endpoint nodes (bare, with no
attributes), then adds the edge if absent. -/
def DiGraph.addEdge (g : DiGraph) (u v : String) : DiGraph :=
  let g1 := (g.addNode u).addNode v
  if g1.edgeMem (u, v) then g1 else { g1 with edges := g1.edges ++ [((u, v), [])] }

/-- `G.nodes[n][k] = a` (the node is present at every call site). -/
def DiGraph.setNodeAttr (g : DiGraph) (n k : String) (a : Attr) : DiGraph :=
  { g with nodes := g.nodes.map (fun p => if p.1 = n then (p.1, attrSet p.2 k a) else p) }

/-- `G.edges[u, v][k] = a` (the edge is present at every call site). -/
def DiGraph.setEdgeAttr (g : DiGraph) (e : String × String) (k : String) (a : Attr) : DiGraph :=
  { g with edges := g.edges.map (fun p => if p.1 = e then (p.1, attrSet p.2 k a) else p) }

/-- Attribute dict of a node, if the node exists. -/
def DiGraph.nodeDict (g : DiGraph) (n : String) : Option AttrDict :=
  match g.nodes.find? (fun p => p.1 = n) with
  | some p => some p.2
  | Option.none => Option.none

/-- Attribute dict of an edge, if the edge exists. -/
def DiGraph.edgeDict (g : DiGraph) (e : String × String) : Option AttrDict :=
  match g.edges.find? (fun p => p.1 = e) with
  | some p => some p.2
  | Option.none => Option.none

/-- Modelled from the spec: the fluid-property record the external
`constants.FluidProperties` table returns for a fluid name (the `constants`
module is not under src/; §2 and §6 of the spec treat it as an external
lookup returning density, resistivity, viscosity and per-analyte data). -/
structure FluidProps where
  min_density : PVal
  min_resistivity : PVal
  min_viscosity : PVal
  analyte_diffusivities : List PVal
  analyte_initial_concentrations : List PVal
  analyte_radii : List PVal
  analyte_charges : List PVal
deriving DecidableEq

/-- The `Fluid` class constructor (src/pymanifold.py:14-31): copies the
externally resolved properties; the table itself is a parameter `db`. -/
def Fluid (db : String → FluidProps) (fluid : String) : FluidProps := db fluid

/-- A symbolic constraint emitted by the translate rule set.  The translate
module is not under src/, so constraints are opaque atoms; nothing in the
verified code inspects them. -/
inductive Expr where
  | pred (tag : String) (args : List String)
deriving DecidableEq

/-- Modelled from the spec: the surface of the `translate` module (not under
src/) that `translate_schematic` calls — `translate_input(dg, name)` and
`translate_chip(dg, name, dim)`, each returning a list of constraints
(spec §4.3).  The theorems quantify over this module. -/
structure TranslateModule where
  translate_input : DiGraph → String → List Expr
  translate_chip : DiGraph → String → List PVal → List Expr

/-- Modelled from the spec: `dir(translate)` as stored into
`self.translation_strats` (src/pymanifold.py:72-78).  The translate module
is not under src/; the comment in the source and spec §4.3 list translation
rules for input, node, output, t-junction and (rectangular) channel, and
`translate_chip` is invoked for the chip boundary.  Python `dir` also
returns dunder names, which can never collide with a `"translate_" + kind`
membership probe, so they are omitted. -/
def dirTranslate : List String :=
  ["translate_channel", "translate_chip", "translate_input",
   "translate_node", "translate_output", "translate_tjunc"]

/-- The `Schematic` object state: accumulated constraint expressions, chip
dimensions, the cached `dir(translate)` and the graph. -/
structure Schematic where
  exprs : List Expr
  dim : List PVal
  translation_strats : List String
  dg : DiGraph
deriving DecidableEq

/-- `Schematic.__init__` (src/pymanifold.py:60-81). -/
def Schematic.init (dim : List PVal) : Schematic :=
  { exprs := [], dim := dim, translation_strats := dirTranslate,
    dg := { nodes := [], edges := [] } }

/-- The channel-variable naming convention `'_'.join([port_from, port_to, attr])`. -/
def chanVarName (port_from port_to a : String) : String :=
  port_from ++ "_" ++ port_to ++ "_" ++ a

/-- The `attributes` dict of `Schematic.channel` (src/pymanifold.py:192-218),
including the no-op re-assignments of the falsy bounds. -/
def channelAttributes (port_from port_to : String)
    (min_length min_width min_height min_resolution : PVal)
    (kind1 phase : String) (min_sampling_rate : PVal) : AttrDict :=
  let attributes : AttrDict :=
    [("kind", Attr.val (PVal.str kind1)),
     ("length", Attr.var (chanVarName port_from port_to "length")),
     ("min_length", Attr.val min_length),
     ("width", Attr.var (chanVarName port_from port_to "width")),
     ("min_width", Attr.val min_width),
     ("height", Attr.var (chanVarName port_from port_to "height")),
     ("min_height", Attr.val min_height),
     ("resolution", Attr.var (chanVarName port_from port_to "resolution")),
     ("min_resolution", Attr.val min_resolution),
     ("flow_rate", Attr.var (chanVarName port_from port_to "flow_rate")),
     ("droplet_volume", Attr.var (chanVarName port_from port_to "droplet_volume")),
     ("viscosity", Attr.var (chanVarName port_from port_to "viscosity")),
     ("resistance", Attr.var (chanVarName port_from port_to "resistance")),
     ("phase", Attr.val (PVal.str (strLower phase))),
     ("port_from", Attr.val (PVal.str port_from)),
     ("port_to", Attr.val (PVal.str port_to)),
     ("x_detector", Attr.var (chanVarName port_from port_to "x_detector")),
     ("min_sampling_rate", Attr.val min_sampling_rate)]
  let attributes :=
    if min_width.truthy = false then attrSet attributes "min_width" (Attr.val min_width)
    else attributes
  let attributes :=
    if min_length.truthy = false then attrSet attributes "min_length" (Attr.val min_length)
    else attributes
  let attributes :=
    if min_height.truthy = false then attrSet attributes "min_height" (Attr.val min_height)
    else attributes
  attributes

/-- `Schematic.channel` (src/pymanifold.py:129-226).  Mirrors the source
order: build the params dict; reject a kind that is not a substring of
"rectangle" (the source's `kind not in ("rectangle")` is a string-membership
test); canonicalize "rectangle" to "channel"; validate parameters; reject a
duplicate ordered edge; reject a kind with no translation rule; then build
the attribute dict (fresh `Variable`s named `from_to_attr`), add the edge
and store the attributes.  Returns the state at exit and the exception, if
any. -/
def Schematic.channel (s : Schematic) (port_from port_to : String)
    (min_length min_width min_height min_resolution : PVal)
    (kind phase : String) (min_sampling_rate : PVal) :
    Schematic × Option PyError :=
  let user_provided_params := mkDict
    [(PVal.str port_from, "string"), (PVal.str port_to, "string"),
     (min_length, "positive number"), (min_width, "positive number"),
     (min_height, "positive number"), (min_resolution, "positive number"),
     (PVal.str kind, "string"), (PVal.str phase, "string"),
     (min_sampling_rate, "positive number")]
  if pyStrIn kind "rectangle" = false then
    (s, some (PyError.valueError "Valid channel kinds are: rectangle"))
  else
    let kind1 := if kind = "rectangle" then "channel" else kind
    match validate_params user_provided_params "Channel"
        ("(" ++ port_from ++ ", " ++ port_to ++ ")") with
    | some e => (s, some e)
    | Option.none =>
      if s.dg.edgeMem (port_from, port_to) then
        (s, some (PyError.valueError "Channel already exists between these nodes"))
      else if (s.translation_strats.contains ("translate_" ++ strLower kind1)) = false then
        (s, some (PyError.valueError "kind must be one of the translation strategies"))
      else
        let dg1 := s.dg.addEdge port_from port_to
        let dg2 := (channelAttributes port_from port_to min_length min_width min_height
            min_resolution kind1 phase min_sampling_rate).foldl
          (fun g p => g.setEdgeAttr (port_from, port_to) p.1 p.2) dg1
        ({ s with dg := dg2 }, Option.none)

/-- The `attributes` dict of `Schematic.port` (src/pymanifold.py:269-302),
with the fluid properties resolved through the external table `db` and the
no-op re-assignments of the falsy bounds. -/
def portAttributes (db : String → FluidProps) (name kind : String)
    (min_pressure min_flow_rate x y : PVal) (fluid_name : String) : AttrDict :=
  let fluid_properties := Fluid db fluid_name
  let attributes : AttrDict :=
    [("kind", Attr.val (PVal.str (strLower kind))),
     ("viscosity", Attr.var (name ++ "_viscosity")),
     ("min_viscosity", Attr.val fluid_properties.min_viscosity),
     ("pressure", Attr.var (name ++ "_pressure")),
     ("min_pressure", Attr.val min_pressure),
     ("flow_rate", Attr.var (name ++ "_flow_rate")),
     ("min_flow_rate", Attr.val min_flow_rate),
     ("density", Attr.var (name ++ "_density")),
     ("min_density", Attr.val fluid_properties.min_density),
     ("x", Attr.var (name ++ "_x")),
     ("y", Attr.var (name ++ "_y")),
     ("min_x", Attr.val x),
     ("min_y", Attr.val y),
     ("analyte_diffusivities", Attr.pylist fluid_properties.analyte_diffusivities),
     ("analyte_initial_concentrations",
      Attr.pylist fluid_properties.analyte_initial_concentrations),
     ("analyte_radii", Attr.pylist fluid_properties.analyte_radii),
     ("analyte_charges", Attr.pylist fluid_properties.analyte_charges)]
  let attributes :=
    if x.truthy = false then attrSet attributes "min_x" (Attr.val x) else attributes
  let attributes :=
    if y.truthy = false then attrSet attributes "min_y" (Attr.val y) else attributes
  let attributes :=
    if min_flow_rate.truthy = false then
      attrSet attributes "min_flow_rate" (Attr.val min_flow_rate)
    else attributes
  let attributes :=
    if min_pressure.truthy = false then
      attrSet attributes "min_pressure" (Attr.val min_pressure)
    else attributes
  attributes

/-- `Schematic.port` (src/pymanifold.py:228-309): validate the params dict,
reject a duplicate name, reject a kind with no translation rule, resolve the
fluid properties, then add the node with its attribute dict (fresh
`Variable`s named `name_attr`). -/
def Schematic.port (db : String → FluidProps) (s : Schematic) (name kind : String)
    (min_pressure min_flow_rate x y : PVal) (fluid_name : String) :
    Schematic × Option PyError :=
  let user_provided_params := mkDict
    [(PVal.str name, "string"), (min_pressure, "positive number"),
     (min_flow_rate, "positive number"), (x, "positive number"),
     (y, "positive number"), (PVal.str kind, "string"),
     (PVal.str fluid_name, "string")]
  match validate_params user_provided_params "port" name with
  | some e => (s, some e)
  | Option.none =>
    if s.dg.nodeMem name then
      (s, some (PyError.valueError "Must provide a unique name"))
    else if (s.translation_strats.contains ("translate_" ++ strLower kind)) = false then
      (s, some (PyError.valueError "kind must be one of the translation strategies"))
    else
      let dg1 := s.dg.addNode name
      let dg2 := (portAttributes db name kind min_pressure min_flow_rate x y
          fluid_name).foldl (fun g p => g.setNodeAttr name p.1 p.2) dg1
      ({ s with dg := dg2 }, Option.none)

/-- The `attributes` dict of `Schematic.node` (src/pymanifold.py:349-371):
the `min_*` bounds are stored as None, and `min_x`/`min_y` are overwritten
only when a truthy position was supplied. -/
def nodeAttributes (name : String) (x y : PVal) (kind : String)
    (c p qf : PVal) : AttrDict :=
  let attributes : AttrDict :=
    [("kind", Attr.val (PVal.str (strLower kind))),
     ("pressure", Attr.var (name ++ "_pressure")),
     ("min_pressure", Attr.val PVal.none),
     ("flow_rate", Attr.var (name ++ "_flow_rate")),
     ("min_flow_rate", Attr.val PVal.none),
     ("viscosity", Attr.var (name ++ "_viscosity")),
     ("min_viscosity", Attr.val PVal.none),
     ("density", Attr.var (name ++ "_density")),
     ("min_density", Attr.val PVal.none),
     ("x", Attr.var (name ++ "_x")),
     ("min_x", Attr.val PVal.none),
     ("y", Attr.var (name ++ "_y")),
     ("min_y", Attr.val PVal.none),
     ("c", Attr.val c),
     ("p", Attr.val p),
     ("qf", Attr.val qf)]
  let attributes :=
    if x.truthy then attrSet attributes "min_x" (Attr.val x) else attributes
  let attributes :=
    if y.truthy then attrSet attributes "min_y" (Attr.val y) else attributes
  attributes

/-- `Schematic.node` (src/pymanifold.py:311-378): validate, reject duplicate
names and unknown kinds, then add the node; the `min_*` bounds are stored as
None, with `min_x`/`min_y` overwritten only when a truthy position was
supplied. -/
def Schematic.node (s : Schematic) (name : String) (x y : PVal) (kind : String)
    (c p qf : PVal) : Schematic × Option PyError :=
  let user_provided_params := mkDict
    [(PVal.str name, "string"), (x, "positive number"), (y, "positive number"),
     (PVal.str kind, "string"), (c, "positive number"), (p, "positive number"),
     (qf, "positive number")]
  match validate_params user_provided_params "node" name with
  | some e => (s, some e)
  | Option.none =>
    if s.dg.nodeMem name then
      (s, some (PyError.valueError "Must provide a unique name"))
    else if (s.translation_strats.contains ("translate_" ++ strLower kind)) = false then
      (s, some (PyError.valueError "kind must be one of the translation strategies"))
    else
      let dg1 := s.dg.addNode name
      let dg2 := (nodeAttributes name x y kind c p qf).foldl
        (fun g p2 => g.setNodeAttr name p2.1 p2.2) dg1
      ({ s with dg := dg2 }, Option.none)

/-- The inner loop of `translate_schematic` (src/pymanifold.py:475-478):
scan every node's `kind` looking for an output; a node with no `kind`
attribute raises KeyError at the point it is reached. -/
def scanOutputs : List (String × AttrDict) → Except PyError Bool
  | [] => Except.ok false
  | (_, d) :: rest =>
    match attrLookup d "kind" with
    | Option.none => Except.error (PyError.keyError "kind")
    | some k =>
      match scanOutputs rest with
      | Except.error e => Except.error e
      | Except.ok b => Except.ok (decide (k = Attr.val (PVal.str "output")) || b)

/-- The outer loop of `translate_schematic` (src/pymanifold.py:468-483):
walk the nodes in order, reading each `kind` (KeyError when absent); every
`input` node re-scans the whole graph for an output and either appends the
input translation to the accumulated expressions or raises.  Returns the
expression list at exit, the `has_input` flag and the exception, if any. -/
def inputPass (tm : TranslateModule) (g : DiGraph) :
    List (String × AttrDict) → Bool → List Expr → List Expr × Bool × Option PyError
  | [], hasInput, acc => (acc, hasInput, Option.none)
  | (name, d) :: rest, hasInput, acc =>
    match attrLookup d "kind" with
    | Option.none => (acc, hasInput, some (PyError.keyError "kind"))
    | some k =>
      if k = Attr.val (PVal.str "input") then
        match scanOutputs g.nodes with
        | Except.error e => (acc, true, some e)
        | Except.ok true =>
          inputPass tm g rest true (acc ++ tm.translate_input g name)
        | Except.ok false =>
          (acc, true,
           some (PyError.valueError ("Schematic input " ++ name ++ " has no output")))
      else inputPass tm g rest hasInput acc

/-- `Schematic.translate_schematic` (src/pymanifold.py:456-490): run the
input pass; raise "Schematic has no input" when no input node was seen;
otherwise append the chip-boundary constraints for every node. -/
def Schematic.translate_schematic (tm : TranslateModule) (s : Schematic) :
    Schematic × Option PyError :=
  match inputPass tm s.dg s.dg.nodes false s.exprs with
  | (es, _, some e) => ({ s with exprs := es }, some e)
  | (es, hasInput, Option.none) =>
    if hasInput = false then
      ({ s with exprs := es }, some (PyError.valueError "Schematic has no input"))
    else
      let es2 := s.dg.nodes.foldl (fun a p => a ++ tm.translate_chip s.dg p.1 s.dim) es
      ({ s with exprs := es2 }, Option.none)

/-- The decision-procedure model: names mapped to solved `[lb, ub]` intervals. -/
abbrev DrealModel := List (String × ℚ × ℚ)

/-- What `invoke_backend` hands back: either the dReal model or the bare
string `"No solution found"` — the source overloads one return shape. -/
inductive BackendResult where
  | model (m : DrealModel)
  | str (s : String)
deriving DecidableEq

/-- `Schematic.invoke_backend` (src/pymanifold.py:492-512): conjoin
`self.exprs` and call `CheckSatisfiability` (the external solver, here the
parameter `checkSat`, applied to the conjunction's operand list); `None`
means unsatisfiable and is turned into the string result.  The `show`
diagnostic flag only prints. -/
def Schematic.invoke_backend (checkSat : List Expr → Option DrealModel)
    (s : Schematic) (_show : Bool) : BackendResult :=
  match checkSat s.exprs with
  | some m => BackendResult.model m
  | Option.none => BackendResult.str "No solution found"

/-- `Schematic.solve` (src/pymanifold.py:514-523): translate, then invoke
the backend; a translation exception propagates. -/
def Schematic.solve (tm : TranslateModule) (checkSat : List Expr → Option DrealModel)
    (s : Schematic) (show_ : Bool) : Schematic × Except PyError BackendResult :=
  match Schematic.translate_schematic tm s with
  | (s2, some e) => (s2, Except.error e)
  | (s2, Option.none) => (s2, Except.ok (s2.invoke_backend checkSat show_))

/-- `nx.readwrite.json_graph.node_link_data(dg)["nodes"]`: each node's
attribute dict extended with `"id": name` (a dict update, so a
pre-existing `id` key would be overwritten in place). -/
def nxNodeList (g : DiGraph) : List AttrDict :=
  g.nodes.map (fun p => attrSet p.2 "id" (Attr.val (PVal.str p.1)))

/-- `node_link_data(dg)["links"]`: each edge's attribute dict extended with
`"source"` and `"target"`. -/
def nxLinkList (g : DiGraph) : List AttrDict :=
  g.edges.map (fun p =>
    attrSet (attrSet p.2 "source" (Attr.val (PVal.str p.1.1)))
      "target" (Attr.val (PVal.str p.1.2)))

/-- The string comparisons `link["source"] == attr_split[i]` /
`node["id"] == attr_split[0]` of `to_json`: the looked-up value is a string
at every reachable call (node-link data always adds these keys); a
non-string value compares unequal, as Python `==` across types does. -/
def attrEqStr (a : Option Attr) (s : String) : Bool :=
  match a with
  | some (Attr.val (PVal.str t)) => decide (t = s)
  | _ => false

/-- Characters split on a separator character: the recursion behind
Python `"…".split("_")`.  The empty string yields `[""]`, adjacent
separators yield empty pieces, exactly as in Python. -/
def splitCharsOn (c : Char) : List Char → List (List Char)
  | [] => [[]]
  | x :: xs =>
    match splitCharsOn c xs, decide (x = c) with
    | r, true => [] :: r
    | [], false => [[x]]
    | y :: ys, false => (x :: y) :: ys

/-- Python `str(attribute).split("_")` of `to_json`
(src/pymanifold.py:541).  Implemented over the character list so it
evaluates by kernel reduction; it agrees with `String.splitOn "_"`. -/
def pySplit (s : String) : List String :=
  (splitCharsOn '_' s.data).map (fun l => String.mk l)

/-- The links half of the `dreal_output` projection loop
(src/pymanifold.py:540-545) for one solved variable: where
`source == parts[0]`, Python then evaluates `parts[1]` (IndexError when the
split has one element) and on a full match stores the interval under
`"_".join(parts[2:])`. -/
def projLinks (parts : List String) (lb ub : ℚ) :
    List AttrDict → Except PyError (List AttrDict)
  | [] => Except.ok []
  | d :: ds =>
    if attrEqStr (attrLookup d "source") (parts.headD "") then
      match parts.get? 1 with
      | some p1 =>
        let d2 :=
          if attrEqStr (attrLookup d "target") p1 then
            attrSet d (String.intercalate "_" (parts.drop 2)) (Attr.interval lb ub)
          else d
        (projLinks parts lb ub ds).map (fun ds2 => d2 :: ds2)
      | Option.none => Except.error (PyError.indexError "list index out of range")
    else
      (projLinks parts lb ub ds).map (fun ds2 => d :: ds2)

/-- The nodes half of the projection loop (src/pymanifold.py:547-549): every
node whose `id` equals `parts[0]` receives the interval under
`"_".join(parts[1:])`. -/
def projNodes (parts : List String) (lb ub : ℚ) (ds : List AttrDict) : List AttrDict :=
  ds.map (fun d =>
    if attrEqStr (attrLookup d "id") (parts.headD "") then
      attrSet d (String.intercalate "_" (parts.drop 1)) (Attr.interval lb ub)
    else d)

/-- The whole `for attribute, value in dreal_output.items()` loop: each
solved variable name is split on `"_"` and written back onto the matching
links and nodes. -/
def projectModel : DrealModel → List AttrDict → List AttrDict →
    Except PyError (List AttrDict × List AttrDict)
  | [], links, nodes => Except.ok (links, nodes)
  | (vname, lb, ub) :: rest, links, nodes =>
    let parts := pySplit vname
    match projLinks parts lb ub links with
    | Except.error e => Except.error e
    | Except.ok links2 => projectModel rest links2 (projNodes parts lb ub nodes)

/-- One `connections` entry of the IR. -/
structure IRConn where
  fromN : Option Attr
  toN : Option Attr
  attributes : AttrDict
deriving DecidableEq

/-- One `nodes` entry of the IR. -/
structure IRNode where
  typeN : Attr
  portAttrs : Attr
  attributes : AttrDict
deriving DecidableEq

/-- One `portTypes` / `nodeTypes` entry of the IR. -/
structure PortTypeEntry where
  signalType : Attr
  attributes : AttrDict
deriving DecidableEq

/-- The attribute bag of one connection (src/pymanifold.py:572-576): every
link attribute except the endpoint bookkeeping keys and raw `Variable`s. -/
def connAttrs (d : AttrDict) : AttrDict :=
  d.filter (fun p =>
    !(p.1 == "port_from" || p.1 == "port_to" || p.1 == "source" || p.1 == "target")
      && !p.2.isVar)

/-- One `connections` entry (src/pymanifold.py:564-576). -/
def connOf (d : AttrDict) : IRConn :=
  { fromN := attrLookup d "source", toN := attrLookup d "target",
    attributes := connAttrs d }

/-- The `connections` section: sequential `ch<idx>` keys over the links. -/
def buildConnections (links : List AttrDict) : List (String × IRConn) :=
  links.enum.map (fun p => ("ch" ++ toString p.1, connOf p.2))

/-- The attribute bag of one node entry (src/pymanifold.py:598-605): every
attribute that is not a raw `Variable`. -/
def nodeEntryAttrs (d : AttrDict) : AttrDict := d.filter (fun p => !p.2.isVar)

/-- The `nodes` / `portTypes` / `nodeTypes` sections
(src/pymanifold.py:578-605): sequential `pT<idx>` keys; reading `kind`
raises KeyError on a node without one; a node of kind input/output is also
registered under `portTypes`, any other under `nodeTypes`. -/
def buildNodes : Nat → List AttrDict →
    Except PyError (List (String × IRNode) × List (String × PortTypeEntry) ×
      List (String × PortTypeEntry))
  | _, [] => Except.ok ([], [], [])
  | i, d :: ds =>
    match attrLookup d "kind" with
    | Option.none => Except.error (PyError.keyError "kind")
    | some kindv =>
      match attrLookup d "id" with
      | Option.none => Except.error (PyError.keyError "id")
      | some idv =>
        let nid := "pT" ++ toString i
        let entry : IRNode := ⟨kindv, idv, nodeEntryAttrs d⟩
        let pte : PortTypeEntry := ⟨kindv, nodeEntryAttrs d⟩
        match buildNodes (i + 1) ds with
        | Except.error e => Except.error e
        | Except.ok (ns, ps, nts) =>
          if kindv = Attr.val (PVal.str "input") ∨ kindv = Attr.val (PVal.str "output") then
            Except.ok ((nid, entry) :: ns, (nid, pte) :: ps, nts)
          else
            Except.ok ((nid, entry) :: ns, ps, (nid, pte) :: nts)

/-- The Manifold intermediate representation assembled by `to_json`. -/
structure ManifoldIR where
  nameIR : String
  userDefinedTypes : List (String × Attr)
  portTypes : List (String × PortTypeEntry)
  nodeTypes : List (String × PortTypeEntry)
  constraintTypes : List (String × Attr)
  nodesIR : List (String × IRNode)
  connections : List (String × IRConn)
  constraintsIR : List (String × Attr)
deriving DecidableEq

/-- `Schematic.to_json` (src/pymanifold.py:525-610): snapshot the node-link
data, run `solve`, iterate `output.items()` — which raises AttributeError
when the backend handed back the "No solution found" string — project the
solved intervals onto the node-link dicts, then assemble the IR (the
non-list node-link entries `directed`/`multigraph`/`graph` land in
`constraints`).  The file write is outside the model; no IR exists when an
exception is raised. -/
def Schematic.to_json (tm : TranslateModule) (checkSat : List Expr → Option DrealModel)
    (s : Schematic) : Schematic × Except PyError ManifoldIR :=
  let nxNodes := nxNodeList s.dg
  let nxLinks := nxLinkList s.dg
  match Schematic.solve tm checkSat s false with
  | (s2, Except.error e) => (s2, Except.error e)
  | (s2, Except.ok (BackendResult.str _)) =>
    (s2, Except.error (PyError.attributeError "str object has no attribute items"))
  | (s2, Except.ok (BackendResult.model m)) =>
    match projectModel m nxLinks nxNodes with
    | Except.error e => (s2, Except.error e)
    | Except.ok (links2, nodes2) =>
      match buildNodes 0 nodes2 with
      | Except.error e => (s2, Except.error e)
      | Except.ok (ns, ps, nts) =>
        (s2, Except.ok
          { nameIR := "Json Data", userDefinedTypes := [], portTypes := ps,
            nodeTypes := nts, constraintTypes := [], nodesIR := ns,
            connections := buildConnections links2,
            constraintsIR :=
              [("directed", Attr.val (PVal.bool true)),
               ("multigraph", Attr.val (PVal.bool false)),
               ("graph", Attr.pydict [])] })

/-! ### Helper lemmas -/

theorem pyEq_str_num (s : String) {v : PVal} {q : ℚ} (h : v.toNum = some q) :
    pyEq (PVal.str s) v = false := by
  cases v <;> simp [pyEq, PVal.toNum] at h ⊢

theorem pyEq_num_str (s : String) {v : PVal} {q : ℚ} (h : v.toNum = some q) :
    pyEq v (PVal.str s) = false := by
  cases v <;> simp [pyEq, PVal.toNum] at h ⊢

theorem pyEq_num_num {v w : PVal} {q r : ℚ} (h : v.toNum = some q)
    (h2 : w.toNum = some r) : pyEq w v = decide (r = q) := by
  cases v <;> cases w <;>
    simp [pyEq, PVal.toNum] at h h2 ⊢ <;> subst h <;> subst h2 <;> simp

theorem pyLt_num_int {v : PVal} {q : ℚ} (h : v.toNum = some q) (n : Int) :
    pyLt v (PVal.int n) = some (decide (q < (n : ℚ))) := by
  cases v <;> simp [PVal.toNum] at h <;> subst h <;> rfl

theorem pyEq_str_str (s t : String) : pyEq (PVal.str s) (PVal.str t) = decide (s = t) := rfl

theorem pyEq_str_bool (s : String) (b : Bool) : pyEq (PVal.str s) (PVal.bool b) = false := rfl

theorem pyEq_bool_str (s : String) (b : Bool) : pyEq (PVal.bool b) (PVal.str s) = false := rfl

theorem pyEq_str_int (s : String) (n : Int) : pyEq (PVal.str s) (PVal.int n) = false := rfl

theorem pyEq_int_str (s : String) (n : Int) : pyEq (PVal.int n) (PVal.str s) = false := rfl

theorem pyEq_eq_decide {a b : PVal} {x y : ℚ} (ha : a.toNum = some x)
    (hb : b.toNum = some y) : pyEq a b = decide (x = y) := by
  cases a <;> cases b <;>
    simp [pyEq, PVal.toNum] at ha hb ⊢ <;> subst ha <;> subst hb <;> simp

theorem pyEq_num_ne {a b : PVal} {x y : ℚ} (ha : a.toNum = some x)
    (hb : b.toNum = some y) (hxy : x ≠ y) : pyEq a b = false := by
  rw [pyEq_eq_decide ha hb]
  simp [hxy]

theorem truthy_of_neg {v : PVal} {q : ℚ} (h : v.toNum = some q) (hq : q < 0) :
    v.truthy = true := by
  cases v <;> simp [PVal.toNum] at h
  case bool b => subst h; cases b <;> norm_num at hq
  case int n =>
    subst h
    simp [PVal.truthy]
    exact_mod_cast hq.ne
  case float q2 =>
    subst h
    simp [PVal.truthy]
    exact hq.ne

theorem validate_cons_falsy {p : PVal} (tag : String) (rest : List (PVal × String))
    (c n : String) (h : p.truthy = false) :
    validate_params ((p, tag) :: rest) c n = validate_params rest c n := by
  simp [validate_params, h]

theorem validate_cons_str (t : String) (rest : List (PVal × String)) (c n : String) :
    validate_params ((PVal.str t, "string") :: rest) c n = validate_params rest c n := by
  by_cases ht : t = "" <;> simp [validate_params, PVal.truthy, PVal.isStr, ht]

theorem validate_cons_neg {v : PVal} {q : ℚ} (rest : List (PVal × String)) (c n : String)
    (h : v.toNum = some q) (hq : q < 0) :
    validate_params ((v, "positive number") :: rest) c n =
      some (PyError.valueError (c ++ " " ++ n ++ " parameter must be >= 0")) := by
  have ht := truthy_of_neg h hq
  have hl := pyLt_num_int h 0
  simp at hl
  simp [validate_params, ht, hl, hq]

theorem validate_cons_strpos (t : String) (rest : List (PVal × String)) (c n : String)
    (ht : t ≠ "") :
    validate_params ((PVal.str t, "positive number") :: rest) c n =
      some (PyError.typeError (c ++ " " ++ n ++ " parameter must be int or float")) := by
  simp [validate_params, PVal.truthy, ht, pyLt, PVal.toNum]

theorem validate_cons_one (rest : List (PVal × String)) (c n : String) :
    validate_params ((PVal.int 1, "positive number") :: rest) c n =
      validate_params rest c n := by
  have h10 : decide ((1 : ℚ) < (0 : ℚ)) = false := by norm_num
  simp [validate_params, PVal.truthy, pyLt, PVal.toNum, h10]

theorem pyLt_one_zero : pyLt (PVal.int 1) (PVal.int 0) = some false := by decide

theorem pyLt_str_int (s : String) (n : Int) : pyLt (PVal.str s) (PVal.int n) = Option.none := rfl

theorem truthy_str (s : String) : (PVal.str s).truthy = decide (s ≠ "") := rfl

theorem truthy_F : (PVal.bool false).truthy = false := rfl

theorem truthy_one : (PVal.int 1).truthy = true := by decide

theorem pyEq_ff : pyEq (PVal.bool false) (PVal.bool false) = true := by decide

theorem pyEq_f_one : pyEq (PVal.bool false) (PVal.int 1) = false := by decide

theorem pyEq_one_f : pyEq (PVal.int 1) (PVal.bool false) = false := by decide

theorem pyEq_str_float (s : String) (r : ℚ) : pyEq (PVal.str s) (PVal.float r) = false := rfl

theorem pyEq_float_str (s : String) (r : ℚ) : pyEq (PVal.float r) (PVal.str s) = false := rfl

theorem pyEq_f_f25 : pyEq (PVal.bool false) (PVal.float (2/5)) = false := by norm_num [pyEq, PVal.toNum]

theorem pyEq_f_f12 : pyEq (PVal.bool false) (PVal.float (1/2)) = false := by norm_num [pyEq, PVal.toNum]

theorem pyEq_f_f910 : pyEq (PVal.bool false) (PVal.float (9/10)) = false := by norm_num [pyEq, PVal.toNum]

theorem pyEq_f25_f12 : pyEq (PVal.float (2/5)) (PVal.float (1/2)) = false := by norm_num [pyEq, PVal.toNum]

theorem pyEq_f25_f910 : pyEq (PVal.float (2/5)) (PVal.float (9/10)) = false := by norm_num [pyEq, PVal.toNum]

theorem pyEq_f12_f910 : pyEq (PVal.float (1/2)) (PVal.float (9/10)) = false := by norm_num [pyEq, PVal.toNum]

theorem truthy_f25 : (PVal.float (2/5)).truthy = true := by norm_num [PVal.truthy]

theorem truthy_f12 : (PVal.float (1/2)).truthy = true := by norm_num [PVal.truthy]

theorem truthy_f910 : (PVal.float (9/10)).truthy = true := by norm_num [PVal.truthy]

theorem pyLt_f25_zero : pyLt (PVal.float (2/5)) (PVal.int 0) = some false := by norm_num [pyLt, PVal.toNum]

theorem pyLt_f12_zero : pyLt (PVal.float (1/2)) (PVal.int 0) = some false := by norm_num [pyLt, PVal.toNum]

theorem pyLt_f910_zero : pyLt (PVal.float (9/10)) (PVal.int 0) = some false := by norm_num [pyLt, PVal.toNum]

theorem pyStrIn_rect : pyStrIn "rectangle" "rectangle" = true := by decide

/-- A params-dict entry that passes validation on its own: a string tagged
"string", the absent sentinel False (any tag), or the literal 1 tagged
"positive number" — the only shapes the creation operations build from
default arguments and name/kind strings. -/
def goodParam (p : PVal × String) : Prop :=
  (∃ t, p.1 = PVal.str t ∧ p.2 = "string") ∨ p.1 = PVal.bool false ∨
    (p.1 = PVal.int 1 ∧ p.2 = "positive number")

theorem validate_params_good : ∀ (l : List (PVal × String)) (c n : String),
    (∀ p ∈ l, goodParam p) → validate_params l c n = Option.none := by
  intro l
  induction l with
  | nil => intro c n _; rfl
  | cons p rest ih =>
    intro c n h
    rcases p with ⟨pv, pt⟩
    have hrest := fun q hq => h q (List.mem_cons_of_mem _ hq)
    rcases h _ (List.mem_cons_self _ _) with ⟨t, h1, h2⟩ | h1 | ⟨h1, h2⟩
    · dsimp only at h1 h2
      subst h1
      subst h2
      rw [validate_cons_str]
      exact ih c n hrest
    · dsimp only at h1
      subst h1
      rw [@validate_cons_falsy (PVal.bool false) pt rest c n rfl]
      exact ih c n hrest
    · dsimp only at h1 h2
      subst h1
      subst h2
      rw [validate_cons_one]
      exact ih c n hrest

theorem dictInsert_good {d : List (PVal × String)} {k : PVal} {v : String}
    (hd : ∀ q ∈ d, goodParam q) (hkv : goodParam (k, v)) :
    ∀ q ∈ dictInsert d k v, goodParam q := by
  intro q hq
  unfold dictInsert at hq
  split at hq
  · rcases List.mem_map.mp hq with ⟨p, hp, rfl⟩
    by_cases hpe : pyEq p.1 k = true
    · rw [if_pos hpe]
      rcases hd p hp with ⟨t, h1, h2⟩ | h1 | ⟨h1, h2⟩
      · rcases hkv with ⟨t2, hk1, hk2⟩ | hk1 | ⟨hk1, hk2⟩
        · exact Or.inl ⟨t, h1, hk2⟩
        · dsimp only at hk1
          rw [h1, hk1, pyEq_str_bool] at hpe
          exact absurd hpe (by simp)
        · dsimp only at hk1
          rw [h1, hk1, pyEq_str_int] at hpe
          exact absurd hpe (by simp)
      · exact Or.inr (Or.inl h1)
      · rcases hkv with ⟨t2, hk1, hk2⟩ | hk1 | ⟨hk1, hk2⟩
        · dsimp only at hk1
          rw [h1, hk1, pyEq_int_str] at hpe
          exact absurd hpe (by simp)
        · dsimp only at hk1
          rw [h1, hk1, pyEq_one_f] at hpe
          exact absurd hpe (by simp)
        · exact Or.inr (Or.inr ⟨h1, hk2⟩)
    · rw [if_neg hpe]
      exact hd p hp
  · rcases List.mem_append.mp hq with h | h
    · exact hd q h
    · simp at h
      rw [h]
      exact hkv

theorem foldl_dictInsert_good : ∀ (l : List (PVal × String))
    (acc : List (PVal × String)), (∀ q ∈ acc, goodParam q) →
    (∀ p ∈ l, goodParam p) →
    ∀ q ∈ l.foldl (fun d p => dictInsert d p.1 p.2) acc, goodParam q := by
  intro l
  induction l with
  | nil => intro acc hacc _ q hq; exact hacc q hq
  | cons p rest ih =>
    intro acc hacc hl
    simp only [List.foldl]
    exact ih _ (dictInsert_good hacc (hl p (List.mem_cons_self _ _)))
      (fun q hq => hl q (List.mem_cons_of_mem _ hq))

theorem mkDict_good {l : List (PVal × String)} (h : ∀ p ∈ l, goodParam p) :
    ∀ q ∈ mkDict l, goodParam q :=
  foldl_dictInsert_good l [] (by simp) h

/-! ### C2: duplicate channel / duplicate name failures mutate nothing -/

set_option maxHeartbeats 1000000 in
/-- C2: creating a channel over an ordered pair that already has a channel
fails, creating a port or node whose name is in use fails, and on every
failure path of the three creation operations the returned graph state is
exactly the input state — no partial mutation. -/
theorem C2_duplicates_fail_without_mutation
    (s : Schematic) (db : String → FluidProps)
    (pf pt nm kind phase fluid : String) (v1 v2 v3 v4 v5 v6 v7 : PVal) :
    (s.dg.edgeMem (pf, pt) = true →
      (Schematic.channel s pf pt v1 v2 v3 v4 kind phase v5).2.isSome = true) ∧
    ((Schematic.channel s pf pt v1 v2 v3 v4 kind phase v5).2.isSome = true →
      (Schematic.channel s pf pt v1 v2 v3 v4 kind phase v5).1 = s) ∧
    (s.dg.nodeMem nm = true →
      (Schematic.port db s nm kind v1 v2 v3 v4 fluid).2.isSome = true) ∧
    ((Schematic.port db s nm kind v1 v2 v3 v4 fluid).2.isSome = true →
      (Schematic.port db s nm kind v1 v2 v3 v4 fluid).1 = s) ∧
    (s.dg.nodeMem nm = true →
      (Schematic.node s nm v1 v2 kind v5 v6 v7).2.isSome = true) ∧
    ((Schematic.node s nm v1 v2 kind v5 v6 v7).2.isSome = true →
      (Schematic.node s nm v1 v2 kind v5 v6 v7).1 = s) := by
  refine ⟨?_, ?_, ?_, ?_, ?_, ?_⟩
  · intro hdup
    unfold Schematic.channel
    dsimp only
    repeat' split
    all_goals simp_all
  · unfold Schematic.channel
    dsimp only
    repeat' split
    all_goals intro h
    all_goals first | rfl | exact Bool.noConfusion h
  · intro hdup
    unfold Schematic.port
    dsimp only
    repeat' split
    all_goals simp_all
  · unfold Schematic.port
    dsimp only
    repeat' split
    all_goals intro h
    all_goals first | rfl | exact Bool.noConfusion h
  · intro hdup
    unfold Schematic.node
    dsimp only
    repeat' split
    all_goals simp_all
  · unfold Schematic.node
    dsimp only
    repeat' split
    all_goals intro h
    all_goals first | rfl | exact Bool.noConfusion h

/-! ### C3: negative "positive number" parameters -/

set_option maxHeartbeats 2000000 in
/-- C3: for each creation operation and each parameter declared
"positive number", a negative numeric value (any int or float below zero)
raises the range-violation ValueError before any entity is created, the
graph being returned untouched; a truthy value of a non-numeric type in the
same position raises the type-mismatch TypeError instead. -/
theorem C3_negative_bounds_rejected_before_creation
    (s : Schematic) (db : String → FluidProps) (v : PVal) (q : ℚ)
    (h : v.toNum = some q) (hq : q < 0) :
    (Schematic.channel s "a" "b" v (PVal.bool false) (PVal.bool false)
        (PVal.bool false) "rectangle" "None" (PVal.int 1) =
      (s, some (PyError.valueError "Channel (a, b) parameter must be >= 0"))) ∧
    (Schematic.channel s "a" "b" (PVal.bool false) v (PVal.bool false)
        (PVal.bool false) "rectangle" "None" (PVal.int 1) =
      (s, some (PyError.valueError "Channel (a, b) parameter must be >= 0"))) ∧
    (Schematic.channel s "a" "b" (PVal.bool false) (PVal.bool false) v
        (PVal.bool false) "rectangle" "None" (PVal.int 1) =
      (s, some (PyError.valueError "Channel (a, b) parameter must be >= 0"))) ∧
    (Schematic.channel s "a" "b" (PVal.bool false) (PVal.bool false)
        (PVal.bool false) v "rectangle" "None" (PVal.int 1) =
      (s, some (PyError.valueError "Channel (a, b) parameter must be >= 0"))) ∧
    (Schematic.channel s "a" "b" (PVal.bool false) (PVal.bool false)
        (PVal.bool false) (PVal.bool false) "rectangle" "None" v =
      (s, some (PyError.valueError "Channel (a, b) parameter must be >= 0"))) ∧
    (Schematic.port db s "a" "input" v (PVal.bool false) (PVal.bool false)
        (PVal.bool false) "default" =
      (s, some (PyError.valueError "port a parameter must be >= 0"))) ∧
    (Schematic.port db s "a" "input" (PVal.bool false) v (PVal.bool false)
        (PVal.bool false) "default" =
      (s, some (PyError.valueError "port a parameter must be >= 0"))) ∧
    (Schematic.port db s "a" "input" (PVal.bool false) (PVal.bool false) v
        (PVal.bool false) "default" =
      (s, some (PyError.valueError "port a parameter must be >= 0"))) ∧
    (Schematic.port db s "a" "input" (PVal.bool false) (PVal.bool false)
        (PVal.bool false) v "default" =
      (s, some (PyError.valueError "port a parameter must be >= 0"))) ∧
    (Schematic.node s "a" v (PVal.bool false) "node" (PVal.float (2/5))
        (PVal.float (1/2)) (PVal.float (9/10)) =
      (s, some (PyError.valueError "node a parameter must be >= 0"))) ∧
    (Schematic.node s "a" (PVal.bool false) v "node" (PVal.float (2/5))
        (PVal.float (1/2)) (PVal.float (9/10)) =
      (s, some (PyError.valueError "node a parameter must be >= 0"))) ∧
    (Schematic.node s "a" (PVal.bool false) (PVal.bool false) "node" v
        (PVal.float (1/2)) (PVal.float (9/10)) =
      (s, some (PyError.valueError "node a parameter must be >= 0"))) ∧
    (Schematic.node s "a" (PVal.bool false) (PVal.bool false) "node"
        (PVal.float (2/5)) v (PVal.float (9/10)) =
      (s, some (PyError.valueError "node a parameter must be >= 0"))) ∧
    (Schematic.node s "a" (PVal.bool false) (PVal.bool false) "node"
        (PVal.float (2/5)) (PVal.float (1/2)) v =
      (s, some (PyError.valueError "node a parameter must be >= 0"))) ∧
    (Schematic.channel s "a" "b" (PVal.str "bad") (PVal.bool false)
        (PVal.bool false) (PVal.bool false) "rectangle" "None" (PVal.int 1) =
      (s, some (PyError.typeError "Channel (a, b) parameter must be int or float"))) ∧
    (Schematic.port db s "a" "input" (PVal.str "bad") (PVal.bool false)
        (PVal.bool false) (PVal.bool false) "default" =
      (s, some (PyError.typeError "port a parameter must be int or float"))) ∧
    (Schematic.node s "a" (PVal.str "bad") (PVal.bool false) "node"
        (PVal.float (2/5)) (PVal.float (1/2)) (PVal.float (9/10)) =
      (s, some (PyError.typeError "node a parameter must be int or float"))) := by
  have htr : v.truthy = true := truthy_of_neg h hq
  have hlt : pyLt v (PVal.int 0) = some true := by
    rw [pyLt_num_int h 0]
    simp [hq]
  have hS1 : ∀ t, pyEq (PVal.str t) v = false := fun t => pyEq_str_num t h
  have hS2 : ∀ t, pyEq v (PVal.str t) = false := fun t => pyEq_num_str t h
  have hF1 : pyEq v (PVal.bool false) = false := pyEq_num_ne h rfl (by exact hq.ne)
  have hF2 : pyEq (PVal.bool false) v = false := pyEq_num_ne rfl h (by exact hq.ne.symm)
  have hI1 : pyEq v (PVal.int 1) = false :=
    pyEq_num_ne h rfl (by intro hh; rw [hh] at hq; norm_num at hq)
  have hI2 : pyEq (PVal.int 1) v = false :=
    pyEq_num_ne rfl h (by intro hh; rw [← hh] at hq; norm_num at hq)
  have hA1 : pyEq v (PVal.float (2/5)) = false :=
    pyEq_num_ne h rfl (by intro hh; rw [hh] at hq; norm_num at hq)
  have hA2 : pyEq (PVal.float (2/5)) v = false :=
    pyEq_num_ne rfl h (by intro hh; rw [← hh] at hq; norm_num at hq)
  have hB1 : pyEq v (PVal.float (1/2)) = false :=
    pyEq_num_ne h rfl (by intro hh; rw [hh] at hq; norm_num at hq)
  have hB2 : pyEq (PVal.float (1/2)) v = false :=
    pyEq_num_ne rfl h (by intro hh; rw [← hh] at hq; norm_num at hq)
  have hC1 : pyEq v (PVal.float (9/10)) = false :=
    pyEq_num_ne h rfl (by intro hh; rw [hh] at hq; norm_num at hq)
  refine ⟨?_, ?_, ?_, ?_, ?_, ?_, ?_, ?_, ?_, ?_, ?_, ?_, ?_, ?_, ?_, ?_, ?_⟩ <;>
    simp [-one_div, Schematic.channel, Schematic.port, Schematic.node, mkDict,
      dictInsert, validate_params, truthy_str, truthy_F, truthy_one,
      truthy_f25, truthy_f12, truthy_f910, PVal.isStr, pyStrIn_rect,
      pyEq_str_str, pyEq_str_bool, pyEq_bool_str, pyEq_str_int, pyEq_int_str,
      pyEq_str_float, pyEq_float_str, pyEq_ff, pyEq_f_one, pyEq_one_f,
      pyEq_f_f25, pyEq_f_f12, pyEq_f_f910, pyEq_f25_f12, pyEq_f25_f910,
      pyEq_f12_f910, pyLt_one_zero, pyLt_str_int, pyLt_f25_zero,
      pyLt_f12_zero, pyLt_f910_zero, hS1, hS2, hF1, hF2, hI1, hI2, hA1, hA2,
      hB1, hB2, hC1, htr, hlt]

/-! ### Concrete fixtures for witnesses -/

/-- A concrete stand-in for the external fluid table (its values are
irrelevant to the verified control flow). -/
def fluidDB0 : String → FluidProps :=
  fun _ =>
    { min_density := PVal.int 997, min_resistivity := PVal.int 1,
      min_viscosity := PVal.int 1, analyte_diffusivities := [],
      analyte_initial_concentrations := [], analyte_radii := [],
      analyte_charges := [] }

def s0w : Schematic := Schematic.init [PVal.int 0, PVal.int 0, PVal.int 1, PVal.int 1]

def s1w : Schematic :=
  (Schematic.port fluidDB0 s0w "a" "input" (PVal.bool false) (PVal.bool false)
    (PVal.bool false) (PVal.bool false) "default").1

def s2w : Schematic :=
  (Schematic.port fluidDB0 s1w "b" "output" (PVal.bool false) (PVal.bool false)
    (PVal.bool false) (PVal.bool false) "default").1

def s3w : Schematic :=
  (Schematic.channel s2w "a" "b" (PVal.bool false) (PVal.bool false)
    (PVal.bool false) (PVal.bool false) "rectangle" "None" (PVal.int 1)).1

/-- Witness for C2 at a concrete duplicated edge and node name. -/
theorem C2_witness :
    s3w.dg.edgeMem ("a", "b") = true ∧
    (Schematic.channel s3w "a" "b" (PVal.bool false) (PVal.bool false)
      (PVal.bool false) (PVal.bool false) "rectangle" "None"
      (PVal.bool false)).2.isSome = true ∧
    (Schematic.channel s3w "a" "b" (PVal.bool false) (PVal.bool false)
      (PVal.bool false) (PVal.bool false) "rectangle" "None"
      (PVal.bool false)).1 = s3w ∧
    s3w.dg.nodeMem "a" = true ∧
    (Schematic.port fluidDB0 s3w "a" "rectangle" (PVal.bool false)
      (PVal.bool false) (PVal.bool false) (PVal.bool false) "default").2.isSome = true ∧
    (Schematic.node s3w "a" (PVal.bool false) (PVal.bool false) "rectangle"
      (PVal.bool false) (PVal.bool false) (PVal.bool false)).2.isSome = true := by
  have hedge : s3w.dg.edgeMem ("a", "b") = true := by decide
  have hnode : s3w.dg.nodeMem "a" = true := by decide
  rcases C2_duplicates_fail_without_mutation s3w fluidDB0 "a" "b" "a"
    "rectangle" "None" "default" (PVal.bool false) (PVal.bool false)
    (PVal.bool false) (PVal.bool false) (PVal.bool false) (PVal.bool false)
    (PVal.bool false) with ⟨h1, h2, h3, h4, h5, h6⟩
  exact ⟨hedge, h1 hedge, h2 (h1 hedge), hnode, h3 hnode, h5 hnode⟩

/-- Witness for C3 at the spec's own example, channel `min_length = -1`. -/
theorem C3_witness :
    Schematic.channel s0w "a" "b" (PVal.int (-1)) (PVal.bool false)
        (PVal.bool false) (PVal.bool false) "rectangle" "None" (PVal.int 1) =
      (s0w, some (PyError.valueError "Channel (a, b) parameter must be >= 0")) :=
  (C3_negative_bounds_rejected_before_creation s0w fluidDB0 (PVal.int (-1))
    (-1) (by norm_num [PVal.toNum]) (by norm_num)).1

/-! ### C4: the boolean-False "absent" sentinel is skipped and stored as-is -/

/-- C4: a parameter whose value is the absent sentinel `False` is skipped
wholesale by `validate_params` — no type check, no sign check, no exception,
whatever the declared kind tag — and the bound is stored on the created
entity as that same falsy value (here: a port's `min_pressure` and a
channel's `min_length`). -/
theorem C4_false_sentinel_is_skipped_and_stored :
    (∀ (tag : String) (rest : List (PVal × String)) (c n : String),
      validate_params ((PVal.bool false, tag) :: rest) c n =
        validate_params rest c n) ∧
    (Schematic.port fluidDB0 s0w "a" "input" (PVal.bool false) (PVal.bool false)
        (PVal.bool false) (PVal.bool false) "default").2 = Option.none ∧
    attrLookup ((s1w.dg.nodeDict "a").getD []) "min_pressure" =
      some (Attr.val (PVal.bool false)) ∧
    (Schematic.channel s2w "a" "b" (PVal.bool false) (PVal.bool false)
        (PVal.bool false) (PVal.bool false) "rectangle" "None" (PVal.int 1)).2 =
      Option.none ∧
    attrLookup ((s3w.dg.edgeDict ("a", "b")).getD []) "min_length" =
      some (Attr.val (PVal.bool false)) := by
  refine ⟨fun tag rest c n => validate_cons_falsy tag rest c n rfl, ?_, ?_, ?_, ?_⟩ <;> decide

/-! ### Graph-state lemmas for the creation operations -/

theorem find?_append_of_not_any {α : Type} {p : α → Bool} {l : List α}
    (h : l.any p = false) (l2 : List α) : (l ++ l2).find? p = l2.find? p := by
  induction l with
  | nil => rfl
  | cons a rest ih =>
    simp at h
    simp [List.find?, h.1, ih (by simp [List.any_eq_false]; exact h.2)]

theorem nodeDict_addNode_fresh {g : DiGraph} {n : String}
    (h : g.nodeMem n = false) : (g.addNode n).nodeDict n = some [] := by
  unfold DiGraph.addNode
  rw [h]
  simp only [Bool.false_eq_true, if_false, DiGraph.nodeDict]
  rw [find?_append_of_not_any h]
  simp [List.find?]

theorem find?_map_update {κ : Type} [DecidableEq κ] (l : List (κ × AttrDict))
    (n : κ) (k : String) (a : Attr) :
    (l.map (fun p => if p.1 = n then (p.1, attrSet p.2 k a) else p)).find?
        (fun p => decide (p.1 = n)) =
      Option.map (fun p => (p.1, attrSet p.2 k a))
        (l.find? (fun p => decide (p.1 = n))) := by
  induction l with
  | nil => rfl
  | cons p rest ih => by_cases hp : p.1 = n <;> simp [List.find?, hp, ih]

theorem nodeDict_setNodeAttr_self {g : DiGraph} {n : String} {d : AttrDict}
    (k : String) (a : Attr) (h : g.nodeDict n = some d) :
    (g.setNodeAttr n k a).nodeDict n = some (attrSet d k a) := by
  unfold DiGraph.nodeDict at h ⊢
  unfold DiGraph.setNodeAttr
  dsimp only
  rw [find?_map_update]
  rcases hf : g.nodes.find? (fun p => decide (p.1 = n)) with _ | p
  · rw [hf] at h
    simp at h
  · rw [hf] at h
    rw [hf]
    simp at h
    simp [h]

theorem nodeDict_foldl_set (attrs : AttrDict) :
    ∀ {g : DiGraph} {n : String} {d : AttrDict}, g.nodeDict n = some d →
    (attrs.foldl (fun g2 p => g2.setNodeAttr n p.1 p.2) g).nodeDict n =
      some (attrs.foldl (fun d2 p => attrSet d2 p.1 p.2) d) := by
  induction attrs with
  | nil => intro g n d h; simpa using h
  | cons p rest ih =>
    intro g n d h
    simp only [List.foldl]
    exact ih (nodeDict_setNodeAttr_self p.1 p.2 h)

theorem edges_addNode (g : DiGraph) (n : String) : (g.addNode n).edges = g.edges := by
  unfold DiGraph.addNode
  split <;> rfl

theorem edgeMem_addNode (g : DiGraph) (n : String) (e : String × String) :
    (g.addNode n).edgeMem e = g.edgeMem e := by
  unfold DiGraph.edgeMem
  rw [edges_addNode]

theorem edgeDict_addEdge_fresh {g : DiGraph} {u v : String}
    (h : g.edgeMem (u, v) = false) : (g.addEdge u v).edgeDict (u, v) = some [] := by
  unfold DiGraph.addEdge
  dsimp only
  rw [edgeMem_addNode, edgeMem_addNode, h]
  simp only [Bool.false_eq_true, if_false, DiGraph.edgeDict]
  rw [edges_addNode, edges_addNode]
  rw [find?_append_of_not_any h]
  simp [List.find?]

theorem edgeDict_setEdgeAttr_self {g : DiGraph} {e : String × String} {d : AttrDict}
    (k : String) (a : Attr) (h : g.edgeDict e = some d) :
    (g.setEdgeAttr e k a).edgeDict e = some (attrSet d k a) := by
  unfold DiGraph.edgeDict at h ⊢
  unfold DiGraph.setEdgeAttr
  dsimp only
  rw [find?_map_update]
  rcases hf : g.edges.find? (fun p => decide (p.1 = e)) with _ | p
  · rw [hf] at h
    simp at h
  · rw [hf] at h
    rw [hf]
    simp at h
    simp [h]

theorem edgeDict_foldl_set (attrs : AttrDict) :
    ∀ {g : DiGraph} {e : String × String} {d : AttrDict}, g.edgeDict e = some d →
    (attrs.foldl (fun g2 p => g2.setEdgeAttr e p.1 p.2) g).edgeDict e =
      some (attrs.foldl (fun d2 p => attrSet d2 p.1 p.2) d) := by
  induction attrs with
  | nil => intro g e d h; simpa using h
  | cons p rest ih =>
    intro g e d h
    simp only [List.foldl]
    exact ih (edgeDict_setEdgeAttr_self p.1 p.2 h)

theorem portAttributes_eq (db : String → FluidProps) (name kind : String)
    (min_pressure min_flow_rate x y : PVal) (fluid_name : String) :
    portAttributes db name kind min_pressure min_flow_rate x y fluid_name =
      [("kind", Attr.val (PVal.str (strLower kind))),
       ("viscosity", Attr.var (name ++ "_viscosity")),
       ("min_viscosity", Attr.val (db fluid_name).min_viscosity),
       ("pressure", Attr.var (name ++ "_pressure")),
       ("min_pressure", Attr.val min_pressure),
       ("flow_rate", Attr.var (name ++ "_flow_rate")),
       ("min_flow_rate", Attr.val min_flow_rate),
       ("density", Attr.var (name ++ "_density")),
       ("min_density", Attr.val (db fluid_name).min_density),
       ("x", Attr.var (name ++ "_x")),
       ("y", Attr.var (name ++ "_y")),
       ("min_x", Attr.val x),
       ("min_y", Attr.val y),
       ("analyte_diffusivities", Attr.pylist (db fluid_name).analyte_diffusivities),
       ("analyte_initial_concentrations",
        Attr.pylist (db fluid_name).analyte_initial_concentrations),
       ("analyte_radii", Attr.pylist (db fluid_name).analyte_radii),
       ("analyte_charges", Attr.pylist (db fluid_name).analyte_charges)] := by
  unfold portAttributes Fluid
  dsimp only
  repeat' split
  all_goals simp [attrSet]

theorem channelAttributes_eq (port_from port_to : String)
    (min_length min_width min_height min_resolution : PVal)
    (kind1 phase : String) (min_sampling_rate : PVal) :
    channelAttributes port_from port_to min_length min_width min_height
        min_resolution kind1 phase min_sampling_rate =
      [("kind", Attr.val (PVal.str kind1)),
       ("length", Attr.var (chanVarName port_from port_to "length")),
       ("min_length", Attr.val min_length),
       ("width", Attr.var (chanVarName port_from port_to "width")),
       ("min_width", Attr.val min_width),
       ("height", Attr.var (chanVarName port_from port_to "height")),
       ("min_height", Attr.val min_height),
       ("resolution", Attr.var (chanVarName port_from port_to "resolution")),
       ("min_resolution", Attr.val min_resolution),
       ("flow_rate", Attr.var (chanVarName port_from port_to "flow_rate")),
       ("droplet_volume", Attr.var (chanVarName port_from port_to "droplet_volume")),
       ("viscosity", Attr.var (chanVarName port_from port_to "viscosity")),
       ("resistance", Attr.var (chanVarName port_from port_to "resistance")),
       ("phase", Attr.val (PVal.str (strLower phase))),
       ("port_from", Attr.val (PVal.str port_from)),
       ("port_to", Attr.val (PVal.str port_to)),
       ("x_detector", Attr.var (chanVarName port_from port_to "x_detector")),
       ("min_sampling_rate", Attr.val min_sampling_rate)] := by
  unfold channelAttributes
  dsimp only
  repeat' split
  all_goals simp [attrSet]

/-- On success, `port` created exactly its attribute dict on a fresh node. -/
theorem port_success_dict {db : String → FluidProps} {s : Schematic}
    {name kind : String} {v1 v2 v3 v4 : PVal} {fluid : String}
    (hs : (Schematic.port db s name kind v1 v2 v3 v4 fluid).2 = Option.none) :
    (Schematic.port db s name kind v1 v2 v3 v4 fluid).1.dg.nodeDict name =
      some ((portAttributes db name kind v1 v2 v3 v4 fluid).foldl
        (fun d2 p => attrSet d2 p.1 p.2) []) := by
  rcases hR : Schematic.port db s name kind v1 v2 v3 v4 fluid with ⟨s2, err⟩
  rw [hR] at hs
  simp at hs
  subst hs
  unfold Schematic.port at hR
  dsimp only at hR
  split at hR
  · simp at hR
  · split at hR
    · simp at hR
    · split at hR
      · simp at hR
      · rename_i hmem _
        simp only [Prod.mk.injEq] at hR
        rw [← hR.1]
        dsimp only
        exact nodeDict_foldl_set _
          (nodeDict_addNode_fresh (by simpa using hmem))

/-- On success, `node` created exactly its attribute dict on a fresh node. -/
theorem node_success_dict {s : Schematic} {name : String} {v1 v2 : PVal}
    {kind : String} {c p qf : PVal}
    (hs : (Schematic.node s name v1 v2 kind c p qf).2 = Option.none) :
    (Schematic.node s name v1 v2 kind c p qf).1.dg.nodeDict name =
      some ((nodeAttributes name v1 v2 kind c p qf).foldl
        (fun d2 p2 => attrSet d2 p2.1 p2.2) []) := by
  rcases hR : Schematic.node s name v1 v2 kind c p qf with ⟨s2, err⟩
  rw [hR] at hs
  simp at hs
  subst hs
  unfold Schematic.node at hR
  dsimp only at hR
  split at hR
  · simp at hR
  · split at hR
    · simp at hR
    · split at hR
      · simp at hR
      · rename_i hmem _
        simp only [Prod.mk.injEq] at hR
        rw [← hR.1]
        dsimp only
        exact nodeDict_foldl_set _
          (nodeDict_addNode_fresh (by simpa using hmem))

/-- On success, `channel` created exactly its attribute dict on a fresh edge. -/
theorem channel_success_dict {s : Schematic} {pf pt : String}
    {v1 v2 v3 v4 : PVal} {kind phase : String} {v5 : PVal}
    (hs : (Schematic.channel s pf pt v1 v2 v3 v4 kind phase v5).2 = Option.none) :
    (Schematic.channel s pf pt v1 v2 v3 v4 kind phase v5).1.dg.edgeDict (pf, pt) =
      some ((channelAttributes pf pt v1 v2 v3 v4
          (if kind = "rectangle" then "channel" else kind) phase v5).foldl
        (fun d2 p2 => attrSet d2 p2.1 p2.2) []) := by
  rcases hR : Schematic.channel s pf pt v1 v2 v3 v4 kind phase v5 with ⟨s2, err⟩
  rw [hR] at hs
  simp at hs
  subst hs
  unfold Schematic.channel at hR
  dsimp only at hR
  split at hR
  · simp at hR
  · split at hR
    · simp at hR
    · split at hR
      · simp at hR
      · rename_i hedge
        split at hR
        · split at hR
          · simp at hR
          · rename_i hkind _
            simp only [Prod.mk.injEq] at hR
            rw [← hR.1]
            dsimp only
            rw [if_pos hkind]
            exact edgeDict_foldl_set _
              (edgeDict_addEdge_fresh (by simpa using hedge))
        · split at hR
          · simp at hR
          · rename_i hkind _
            simp only [Prod.mk.injEq] at hR
            rw [← hR.1]
            dsimp only
            rw [if_neg hkind]
            exact edgeDict_foldl_set _
              (edgeDict_addEdge_fresh (by simpa using hedge))

theorem attrLookup_mem : ∀ {d : AttrDict} {k : String} {a : Attr},
    attrLookup d k = some a → (k, a) ∈ d := by
  intro d
  induction d with
  | nil => intro k a h; simp [attrLookup] at h
  | cons p rest ih =>
    intro k a h
    by_cases hk : k = p.1
    · rw [attrLookup, if_pos hk] at h
      simp at h
      subst hk
      subst h
      simp
    · rw [attrLookup, if_neg hk] at h
      exact List.mem_cons_of_mem _ (ih h)

theorem mem_attrSet : ∀ {d : AttrDict} {k : String} {a : Attr} {p : String × Attr},
    p ∈ attrSet d k a → p ∈ d ∨ p = (k, a) := by
  intro d
  induction d with
  | nil => intro k a p h; simp [attrSet] at h; simp [h]
  | cons q rest ih =>
    intro k a p h
    rw [attrSet] at h
    split at h
    · rename_i hq
      rcases List.mem_cons.mp h with h2 | h2
      · right; rw [h2, hq]
      · left; exact List.mem_cons_of_mem _ h2
    · rcases List.mem_cons.mp h with h2 | h2
      · left; simp [h2]
      · rcases ih h2 with h3 | h3
        · left; exact List.mem_cons_of_mem _ h3
        · right; exact h3

theorem mem_attrSet_ite {c : Prop} [Decidable c] {d : AttrDict} {k : String}
    {a : Attr} {p : String × Attr} (h : p ∈ (if c then attrSet d k a else d)) :
    p ∈ d ∨ p = (k, a) := by
  split at h
  · exact mem_attrSet h
  · exact Or.inl h

theorem mem_foldl_attrSet : ∀ (l : AttrDict) {acc : AttrDict} {p : String × Attr},
    p ∈ l.foldl (fun d q => attrSet d q.1 q.2) acc → p ∈ acc ∨ p ∈ l := by
  intro l
  induction l with
  | nil => intro acc p h; exact Or.inl h
  | cons x xs ih =>
    intro acc p h
    rcases ih h with h2 | h2
    · rcases mem_attrSet h2 with h3 | h3
      · exact Or.inl h3
      · right; simp [h3]
    · right; exact List.mem_cons_of_mem _ h2

set_option maxHeartbeats 1000000 in
/-- C6: every symbolic variable allocated by a successful creation follows
the naming convention: `name_attr` for port and node attributes and
`from_to_attr` (`chanVarName`) for channel attributes. -/
theorem C6_variable_naming
    (db : String → FluidProps) (s : Schematic) (name kind phase fluid pf pt : String)
    (v1 v2 v3 v4 v5 v6 v7 : PVal) :
    ((Schematic.port db s name kind v1 v2 v3 v4 fluid).2 = Option.none →
      ∀ k vn,
        attrLookup (((Schematic.port db s name kind v1 v2 v3 v4 fluid).1.dg.nodeDict
          name).getD []) k = some (Attr.var vn) → vn = name ++ "_" ++ k) ∧
    ((Schematic.node s name v1 v2 kind v5 v6 v7).2 = Option.none →
      ∀ k vn,
        attrLookup (((Schematic.node s name v1 v2 kind v5 v6 v7).1.dg.nodeDict
          name).getD []) k = some (Attr.var vn) → vn = name ++ "_" ++ k) ∧
    ((Schematic.channel s pf pt v1 v2 v3 v4 kind phase v5).2 = Option.none →
      ∀ k vn,
        attrLookup (((Schematic.channel s pf pt v1 v2 v3 v4 kind phase
          v5).1.dg.edgeDict (pf, pt)).getD []) k = some (Attr.var vn) →
          vn = chanVarName pf pt k) := by
  refine ⟨?_, ?_, ?_⟩
  · intro hs k vn hl
    rw [port_success_dict hs] at hl
    rw [portAttributes_eq] at hl
    simp only [Option.getD_some] at hl
    rcases mem_foldl_attrSet _ (attrLookup_mem hl) with hin | hin
    · simp at hin
    · simp [Prod.mk.injEq] at hin
      rcases hin with ⟨rfl, rfl⟩ | ⟨rfl, rfl⟩ | ⟨rfl, rfl⟩ | ⟨rfl, rfl⟩ |
        ⟨rfl, rfl⟩ | ⟨rfl, rfl⟩ <;> (rw [String.append_assoc]; exact rfl)
  · intro hs k vn hl
    rw [node_success_dict hs] at hl
    simp only [Option.getD_some] at hl
    rcases mem_foldl_attrSet _ (attrLookup_mem hl) with hin | hin
    · simp at hin
    · unfold nodeAttributes at hin
      dsimp only at hin
      rcases mem_attrSet_ite hin with hin2 | hy
      · rcases mem_attrSet_ite hin2 with hin3 | hx
        · simp [Prod.mk.injEq] at hin3
          rcases hin3 with ⟨rfl, rfl⟩ | ⟨rfl, rfl⟩ | ⟨rfl, rfl⟩ | ⟨rfl, rfl⟩ |
            ⟨rfl, rfl⟩ | ⟨rfl, rfl⟩ <;> (rw [String.append_assoc]; exact rfl)
        · simp at hx
      · simp at hy
  · intro hs k vn hl
    rw [channel_success_dict hs] at hl
    rw [channelAttributes_eq] at hl
    simp only [Option.getD_some] at hl
    rcases mem_foldl_attrSet _ (attrLookup_mem hl) with hin | hin
    · simp at hin
    · simp [Prod.mk.injEq] at hin
      rcases hin with hq | hq | hq | hq | hq | hq | hq | hq | hq <;>
        (obtain ⟨rfl, rfl⟩ := hq; rfl)

/-- Witness for C6: the concrete fixture pipeline. -/
theorem C6_witness :
    (Schematic.port fluidDB0 s0w "a" "input" (PVal.bool false) (PVal.bool false)
      (PVal.bool false) (PVal.bool false) "default").2 = Option.none ∧
    attrLookup (((Schematic.port fluidDB0 s0w "a" "input" (PVal.bool false)
      (PVal.bool false) (PVal.bool false) (PVal.bool false)
      "default").1.dg.nodeDict "a").getD []) "pressure" =
        some (Attr.var ("a" ++ "_" ++ "pressure")) := by
  have h1 : (Schematic.port fluidDB0 s0w "a" "input" (PVal.bool false)
      (PVal.bool false) (PVal.bool false) (PVal.bool false) "default").2 =
      Option.none := by decide
  have h2 : attrLookup (((Schematic.port fluidDB0 s0w "a" "input" (PVal.bool false)
      (PVal.bool false) (PVal.bool false) (PVal.bool false)
      "default").1.dg.nodeDict "a").getD []) "pressure" =
        some (Attr.var "a_pressure") := by decide
  refine ⟨h1, ?_⟩
  rw [h2]
  have := (C6_variable_naming fluidDB0 s0w "a" "input" "None" "default" "a" "b"
    (PVal.bool false) (PVal.bool false) (PVal.bool false) (PVal.bool false)
    (PVal.bool false) (PVal.bool false) (PVal.bool false)).1 h1 "pressure"
    "a_pressure" h2
  rw [← this]

/-! ### C10: channel endpoints are never checked for existence -/

theorem scanOutputs_keyError {l : List (String × AttrDict)}
    (h : ∃ p ∈ l, attrLookup p.2 "kind" = Option.none) :
    scanOutputs l = Except.error (PyError.keyError "kind") := by
  induction l with
  | nil => simp at h
  | cons p rest ih =>
    rcases h with ⟨q, hq, hqk⟩
    rcases List.mem_cons.mp hq with rfl | hmem
    · rw [scanOutputs, hqk]
    · rw [scanOutputs]
      cases hk : attrLookup p.2 "kind"
      · rfl
      · rw [ih ⟨q, hmem, hqk⟩]

theorem inputPass_keyError (tm : TranslateModule) (g : DiGraph)
    (hg : ∃ p ∈ g.nodes, attrLookup p.2 "kind" = Option.none) :
    ∀ (l : List (String × AttrDict)) (hi : Bool) (acc : List Expr),
      (∃ p ∈ l, attrLookup p.2 "kind" = Option.none) →
      ∃ acc2 b, inputPass tm g l hi acc = (acc2, b, some (PyError.keyError "kind")) := by
  intro l
  induction l with
  | nil => intro hi acc h; simp at h
  | cons p rest ih =>
    intro hi acc h
    cases hk : attrLookup p.2 "kind"
    · exact ⟨acc, hi, by rw [inputPass, hk]⟩
    · rcases h with ⟨q, hq, hqk⟩
      rcases List.mem_cons.mp hq with rfl | hmem
      · rw [hk] at hqk
        exact absurd hqk (by simp)
      · rename_i k
        rw [inputPass, hk]
        dsimp only
        by_cases hki : k = Attr.val (PVal.str "input")
        · rw [if_pos hki, scanOutputs_keyError hg]
          exact ⟨acc, true, rfl⟩
        · rw [if_neg hki]
          exact ih hi acc ⟨q, hmem, hqk⟩

/-- A graph holding any node without a `kind` attribute makes
`translate_schematic` raise KeyError. -/
theorem translate_keyError (tm : TranslateModule) (s : Schematic)
    (hg : ∃ p ∈ s.dg.nodes, attrLookup p.2 "kind" = Option.none) :
    ∃ s2, Schematic.translate_schematic tm s = (s2, some (PyError.keyError "kind")) := by
  rcases inputPass_keyError tm s.dg hg s.dg.nodes false s.exprs hg with ⟨acc2, b, hip⟩
  refine ⟨{ s with exprs := acc2 }, ?_⟩
  rw [Schematic.translate_schematic, hip]

theorem find?_append_single {α : Type} (l : List α) (x : α) (p : α → Bool) :
    (l ++ [x]).find? p =
      (match l.find? p with
       | some r => some r
       | Option.none => [x].find? p) := by
  induction l with
  | nil => rfl
  | cons a rest ih =>
    by_cases ha : p a = true <;> simp [List.find?, ha, ih]

theorem nodes_addNode_fresh {g : DiGraph} {n : String} (h : g.nodeMem n = false) :
    (g.addNode n).nodes = g.nodes ++ [(n, [])] := by
  unfold DiGraph.addNode
  rw [h]
  simp

theorem nodes_addNode (g : DiGraph) (n : String) :
    (g.addNode n).nodes =
      (if g.nodeMem n then g.nodes else g.nodes ++ [(n, [])]) := by
  unfold DiGraph.addNode
  split <;> rfl

theorem nodes_addEdge (g : DiGraph) (u v : String) :
    (g.addEdge u v).nodes = ((g.addNode u).addNode v).nodes := by
  unfold DiGraph.addEdge
  dsimp only
  split <;> rfl

theorem nodes_setEdgeAttr (g : DiGraph) (e : String × String) (k : String) (a : Attr) :
    (g.setEdgeAttr e k a).nodes = g.nodes := rfl

theorem nodes_foldl_setEdgeAttr (attrs : AttrDict) :
    ∀ (g : DiGraph) (e : String × String),
      (attrs.foldl (fun g2 p => g2.setEdgeAttr e p.1 p.2) g).nodes = g.nodes := by
  induction attrs with
  | nil => intro g e; rfl
  | cons p rest ih =>
    intro g e
    simp only [List.foldl]
    rw [ih]
    rfl

/-- Looking a name up among the nodes, as a standalone list operation. -/
theorem nodeDict_eq_find (g : DiGraph) (n : String) :
    g.nodeDict n =
      (match g.nodes.find? (fun p => decide (p.1 = n)) with
       | some p => some p.2
       | Option.none => Option.none) := rfl

theorem edgeMem_setEdgeAttr (g : DiGraph) (e : String × String) (k : String)
    (a : Attr) (e2 : String × String) :
    (g.setEdgeAttr e k a).edgeMem e2 = g.edgeMem e2 := by
  simp only [DiGraph.edgeMem, DiGraph.setEdgeAttr, List.any_map]
  congr 1
  funext p
  simp only [Function.comp]
  split <;> rfl

theorem edgeMem_foldl_setEdgeAttr (attrs : AttrDict) :
    ∀ (g : DiGraph) (e e2 : String × String),
      (attrs.foldl (fun g2 p => g2.setEdgeAttr e p.1 p.2) g).edgeMem e2 =
        g.edgeMem e2 := by
  induction attrs with
  | nil => intro g e e2; rfl
  | cons p rest ih =>
    intro g e e2
    simp only [List.foldl]
    rw [ih, edgeMem_setEdgeAttr]

theorem edgeMem_addEdge_self (g : DiGraph) (u v : String) :
    (g.addEdge u v).edgeMem (u, v) = true := by
  unfold DiGraph.addEdge
  dsimp only
  split
  · rename_i h
    exact h
  · simp [DiGraph.edgeMem, List.any_append]

set_option maxHeartbeats 1000000 in
/-- C10: `channel` never checks that its endpoints exist: for names that are
not nodes of the graph (and with no stray edge between them, which a
NetworkX-reachable state cannot have), the call succeeds, silently adds both
endpoints as bare nodes carrying no attributes at all — in particular no
`kind` — and any subsequent solve then dies with KeyError("kind") instead of
a defined validation error.  `hts` pins the cached `dir(translate)` to its
`__init__` value. -/
theorem C10_channel_endpoints_unchecked
    (s : Schematic) (u v : String)
    (hu : s.dg.nodeMem u = false) (hv : s.dg.nodeMem v = false)
    (he : s.dg.edgeMem (u, v) = false)
    (hts : s.translation_strats = dirTranslate) :
    (Schematic.channel s u v (PVal.bool false) (PVal.bool false)
      (PVal.bool false) (PVal.bool false) "rectangle" "None" (PVal.int 1)).2 =
      Option.none ∧
    (Schematic.channel s u v (PVal.bool false) (PVal.bool false)
      (PVal.bool false) (PVal.bool false) "rectangle" "None"
      (PVal.int 1)).1.dg.nodeDict u = some [] ∧
    (Schematic.channel s u v (PVal.bool false) (PVal.bool false)
      (PVal.bool false) (PVal.bool false) "rectangle" "None"
      (PVal.int 1)).1.dg.nodeDict v = some [] ∧
    (Schematic.channel s u v (PVal.bool false) (PVal.bool false)
      (PVal.bool false) (PVal.bool false) "rectangle" "None"
      (PVal.int 1)).1.dg.edgeMem (u, v) = true ∧
    ∀ (tm : TranslateModule) (cs : List Expr → Option DrealModel),
      ∃ s2,
        Schematic.solve tm cs (Schematic.channel s u v (PVal.bool false)
          (PVal.bool false) (PVal.bool false) (PVal.bool false) "rectangle"
          "None" (PVal.int 1)).1 false = (s2, Except.error (PyError.keyError "kind")) := by
  have hval : validate_params (mkDict
      [(PVal.str u, "string"), (PVal.str v, "string"),
       (PVal.bool false, "positive number"), (PVal.bool false, "positive number"),
       (PVal.bool false, "positive number"), (PVal.bool false, "positive number"),
       (PVal.str "rectangle", "string"), (PVal.str "None", "string"),
       (PVal.int 1, "positive number")]) "Channel" ("(" ++ u ++ ", " ++ v ++ ")") =
      Option.none := by
    apply validate_params_good
    apply mkDict_good
    intro p hp
    simp only [List.mem_cons, List.not_mem_nil, or_false] at hp
    rcases hp with rfl | rfl | rfl | rfl | rfl | rfl | rfl | rfl | rfl <;>
      first
        | exact Or.inl ⟨_, rfl, rfl⟩
        | exact Or.inr (Or.inl rfl)
        | exact Or.inr (Or.inr ⟨rfl, rfl⟩)
  have hstrats : ("translate_" ++ strLower "channel") ∈ dirTranslate := by decide
  have hres : Schematic.channel s u v (PVal.bool false) (PVal.bool false)
      (PVal.bool false) (PVal.bool false) "rectangle" "None" (PVal.int 1) =
      (⟨s.exprs, s.dim, s.translation_strats,
        List.foldl (fun g p => g.setEdgeAttr (u, v) p.1 p.2) (s.dg.addEdge u v)
          (channelAttributes u v (PVal.bool false) (PVal.bool false)
            (PVal.bool false) (PVal.bool false) "channel" "None" (PVal.int 1))⟩,
       Option.none) := by
    unfold Schematic.channel
    dsimp only
    rw [if_neg (by rw [pyStrIn_rect]; simp)]
    rw [if_pos rfl]
    rw [hval]
    dsimp only
    rw [if_neg (by rw [he]; simp)]
    rw [if_neg (by rw [hts]; simp [hstrats])]
  have hnodes : (Schematic.channel s u v (PVal.bool false) (PVal.bool false)
      (PVal.bool false) (PVal.bool false) "rectangle" "None"
      (PVal.int 1)).1.dg.nodes =
      (if (s.dg.addNode u).nodeMem v then (s.dg.addNode u).nodes
       else (s.dg.addNode u).nodes ++ [(v, [])]) := by
    rw [hres]
    dsimp only
    rw [nodes_foldl_setEdgeAttr, nodes_addEdge, nodes_addNode]
  have hmemv : (s.dg.addNode u).nodeMem v = decide (u = v) := by
    unfold DiGraph.nodeMem at hv ⊢
    rw [nodes_addNode_fresh hu]
    simp [List.any_append, hv]
  have hndu : (Schematic.channel s u v (PVal.bool false) (PVal.bool false)
      (PVal.bool false) (PVal.bool false) "rectangle" "None"
      (PVal.int 1)).1.dg.nodeDict u = some [] := by
    rw [nodeDict_eq_find, hnodes, hmemv]
    by_cases huv : u = v
    · rw [if_pos (by simp [huv])]
      rw [nodes_addNode_fresh hu]
      rw [find?_append_of_not_any (by simpa [DiGraph.nodeMem] using hu)]
      simp [List.find?]
    · rw [if_neg (by simp [huv])]
      rw [nodes_addNode_fresh hu]
      rw [find?_append_single]
      rw [find?_append_of_not_any (by simpa [DiGraph.nodeMem] using hu)]
      simp [List.find?]
  have hndv : (Schematic.channel s u v (PVal.bool false) (PVal.bool false)
      (PVal.bool false) (PVal.bool false) "rectangle" "None"
      (PVal.int 1)).1.dg.nodeDict v = some [] := by
    rw [nodeDict_eq_find, hnodes, hmemv]
    by_cases huv : u = v
    · rw [if_pos (by simp [huv])]
      rw [nodes_addNode_fresh hu]
      rw [find?_append_of_not_any (by simpa [DiGraph.nodeMem] using hv)]
      subst huv
      simp [List.find?]
    · rw [if_neg (by simp [huv])]
      rw [nodes_addNode_fresh hu]
      have hv2 : (s.dg.nodes.any fun p => decide (p.1 = v)) = false := hv
      have hany : ((s.dg.nodes ++ [(u, [])]).any fun p => decide (p.1 = v)) = false := by
        simp only [List.any_append, hv2, List.any_cons, List.any_nil]
        simp [huv]
      rw [find?_append_of_not_any hany]
      simp [List.find?]
  have hedge2 : (Schematic.channel s u v (PVal.bool false) (PVal.bool false)
      (PVal.bool false) (PVal.bool false) "rectangle" "None"
      (PVal.int 1)).1.dg.edgeMem (u, v) = true := by
    rw [hres]
    dsimp only
    rw [edgeMem_foldl_setEdgeAttr]
    exact edgeMem_addEdge_self s.dg u v
  refine ⟨by rw [hres], hndu, hndv, hedge2, ?_⟩
  intro tm cs
  have hg : ∃ p ∈ (Schematic.channel s u v (PVal.bool false) (PVal.bool false)
      (PVal.bool false) (PVal.bool false) "rectangle" "None"
      (PVal.int 1)).1.dg.nodes, attrLookup p.2 "kind" = Option.none := by
    rcases hq : ((Schematic.channel s u v (PVal.bool false) (PVal.bool false)
        (PVal.bool false) (PVal.bool false) "rectangle" "None"
        (PVal.int 1)).1.dg.nodes.find? (fun p => decide (p.1 = u))) with _ | q
    · rw [nodeDict_eq_find, hq] at hndu
      simp at hndu
    · refine ⟨q, List.mem_of_find?_eq_some hq, ?_⟩
      rw [nodeDict_eq_find, hq] at hndu
      simp at hndu
      rw [hndu]
      rfl
  rcases translate_keyError tm (Schematic.channel s u v (PVal.bool false)
      (PVal.bool false) (PVal.bool false) (PVal.bool false) "rectangle" "None"
      (PVal.int 1)).1 hg with ⟨s2, htr⟩
  refine ⟨s2, ?_⟩
  rw [Schematic.solve, htr]

/-- A trivial translate module for concrete runs (the claims under test do
not depend on the constraints the rules emit). -/
def tm0 : TranslateModule :=
  { translate_input := fun _ _ => [], translate_chip := fun _ _ _ => [] }

/-- A decision procedure that reports unsatisfiable. -/
def cs0 : List Expr → Option DrealModel := fun _ => Option.none

/-- Witness for C10: fresh names "u", "v" on the initial schematic. -/
theorem C10_witness :
    (Schematic.channel s0w "u" "v" (PVal.bool false) (PVal.bool false)
      (PVal.bool false) (PVal.bool false) "rectangle" "None" (PVal.int 1)).2 =
      Option.none ∧
    ∃ s2, Schematic.solve tm0 cs0 (Schematic.channel s0w "u" "v" (PVal.bool false)
      (PVal.bool false) (PVal.bool false) (PVal.bool false) "rectangle" "None"
      (PVal.int 1)).1 false = (s2, Except.error (PyError.keyError "kind")) := by
  have h := C10_channel_endpoints_unchecked s0w "u" "v" (by decide) (by decide)
    (by decide) (by decide)
  exact ⟨h.1, h.2.2.2.2 tm0 cs0⟩

/-! ### C5: kind tags are rejected at creation time -/

theorem strLower_data (s : String) : (strLower s).data = s.data.map Char.toLower := rfl

theorem contains_false_of_not_mem {l : List String} {x : String} (h : x ∉ l) :
    l.contains x = false := by
  cases hc : l.contains x
  · rfl
  · exact absurd (by simpa using hc) h

/-- If a lower-cased kind equals a word containing a letter that (even after
down-casing) does not occur in "rectangle", the kind cannot be a substring
of "rectangle". -/
theorem no_lower_char {kind : String}
    (hsub : ∀ c ∈ kind.data, c ∈ "rectangle".data)
    {T : List Char} (hd2 : kind.data.map Char.toLower = T) (c0 : Char)
    (hc0 : c0 ∈ T) (hbad : ∀ c ∈ "rectangle".data, Char.toLower c ≠ c0) : False := by
  rw [← hd2] at hc0
  rcases List.mem_map.mp hc0 with ⟨ch, hch, htl⟩
  exact hbad ch (hsub ch hch) htl

/-- The only substring of "rectangle" whose translation rule exists is
"rectangle" itself; every proper substring fails the
`"translate_" + kind.lower()` membership probe. -/
theorem translate_missing_of_substring {kind : String}
    (hinf : pyStrIn kind "rectangle" = true) (_hne : kind ≠ "rectangle") :
    ("translate_" ++ strLower kind) ∉ dirTranslate := by
  intro hmem
  have hinf2 : kind.data <:+: "rectangle".data := of_decide_eq_true hinf
  have hsub : ∀ c ∈ kind.data, c ∈ "rectangle".data := fun c hc => hinf2.subset hc
  simp only [dirTranslate, List.mem_cons, List.not_mem_nil, or_false] at hmem
  rcases hmem with h | h | h | h | h | h
  · have hd := congrArg String.data h
    rw [String.data_append, strLower_data,
      show "translate_channel".data = "translate_".data ++ "channel".data from by decide] at hd
    exact no_lower_char hsub (List.append_cancel_left hd) 'h' (by decide) (by decide)
  · have hd := congrArg String.data h
    rw [String.data_append, strLower_data,
      show "translate_chip".data = "translate_".data ++ "chip".data from by decide] at hd
    exact no_lower_char hsub (List.append_cancel_left hd) 'h' (by decide) (by decide)
  · have hd := congrArg String.data h
    rw [String.data_append, strLower_data,
      show "translate_input".data = "translate_".data ++ "input".data from by decide] at hd
    exact no_lower_char hsub (List.append_cancel_left hd) 'u' (by decide) (by decide)
  · have hd := congrArg String.data h
    rw [String.data_append, strLower_data,
      show "translate_node".data = "translate_".data ++ "node".data from by decide] at hd
    exact no_lower_char hsub (List.append_cancel_left hd) 'o' (by decide) (by decide)
  · have hd := congrArg String.data h
    rw [String.data_append, strLower_data,
      show "translate_output".data = "translate_".data ++ "output".data from by decide] at hd
    exact no_lower_char hsub (List.append_cancel_left hd) 'o' (by decide) (by decide)
  · have hd := congrArg String.data h
    rw [String.data_append, strLower_data,
      show "translate_tjunc".data = "translate_".data ++ "tjunc".data from by decide] at hd
    exact no_lower_char hsub (List.append_cancel_left hd) 'j' (by decide) (by decide)

set_option maxHeartbeats 1000000 in
/-- C5: a channel kind other than "rectangle" is always rejected at creation
time (whether it fails the substring test or the translation-rule probe);
the accepted kind "rectangle" is stored canonicalized as "channel"; and a
port or node kind with no `translate_<kind.lower()>` rule is rejected at
creation time.  `hts` pins the cached `dir(translate)` to its `__init__`
value. -/
theorem C5_unsupported_kinds_rejected_at_creation (db : String → FluidProps) :
    (∀ (s : Schematic) (pf pt phase kind : String),
      s.translation_strats = dirTranslate → kind ≠ "rectangle" →
      (Schematic.channel s pf pt (PVal.bool false) (PVal.bool false)
        (PVal.bool false) (PVal.bool false) kind phase (PVal.int 1)).2.isSome = true) ∧
    ((Schematic.channel s2w "a" "b" (PVal.bool false) (PVal.bool false)
      (PVal.bool false) (PVal.bool false) "rectangle" "None" (PVal.int 1)).2 =
        Option.none ∧
      attrLookup ((s3w.dg.edgeDict ("a", "b")).getD []) "kind" =
        some (Attr.val (PVal.str "channel"))) ∧
    (∀ (s : Schematic) (name kind fluid : String),
      s.translation_strats = dirTranslate →
      ("translate_" ++ strLower kind) ∉ dirTranslate →
      (Schematic.port db s name kind (PVal.bool false) (PVal.bool false)
        (PVal.bool false) (PVal.bool false) fluid).2.isSome = true) ∧
    (∀ (s : Schematic) (name kind : String),
      s.translation_strats = dirTranslate →
      ("translate_" ++ strLower kind) ∉ dirTranslate →
      (Schematic.node s name (PVal.bool false) (PVal.bool false) kind
        (PVal.bool false) (PVal.bool false) (PVal.bool false)).2.isSome = true) ∧
    (Schematic.port fluidDB0 s0w "a" "input" (PVal.bool false) (PVal.bool false)
      (PVal.bool false) (PVal.bool false) "default").2 = Option.none := by
  refine ⟨?_, ⟨by decide, by decide⟩, ?_, ?_, by decide⟩
  · intro s pf pt phase kind hts hne
    unfold Schematic.channel
    dsimp only
    cases hin : pyStrIn kind "rectangle"
    · rw [if_pos rfl]
      simp
    · rw [if_neg (by simp)]
      rw [if_neg hne]
      rw [validate_params_good _ _ _ (mkDict_good (by
        intro p hp
        simp only [List.mem_cons, List.not_mem_nil, or_false] at hp
        rcases hp with rfl | rfl | rfl | rfl | rfl | rfl | rfl | rfl | rfl <;>
          first
            | exact Or.inl ⟨_, rfl, rfl⟩
            | exact Or.inr (Or.inl rfl)
            | exact Or.inr (Or.inr ⟨rfl, rfl⟩)))]
      dsimp only
      by_cases hdup : s.dg.edgeMem (pf, pt) = true
      · rw [if_pos hdup]
        simp
      · rw [if_neg hdup]
        rw [hts, contains_false_of_not_mem (translate_missing_of_substring hin hne)]
        simp
  · intro s name kind fluid hts hnot
    unfold Schematic.port
    dsimp only
    rw [validate_params_good _ _ _ (mkDict_good (by
      intro p hp
      simp only [List.mem_cons, List.not_mem_nil, or_false] at hp
      rcases hp with rfl | rfl | rfl | rfl | rfl | rfl | rfl <;>
        first
          | exact Or.inl ⟨_, rfl, rfl⟩
          | exact Or.inr (Or.inl rfl)))]
    dsimp only
    by_cases hdup : s.dg.nodeMem name = true
    · rw [if_pos hdup]
      simp
    · rw [if_neg hdup]
      rw [hts, contains_false_of_not_mem hnot]
      simp
  · intro s name kind hts hnot
    unfold Schematic.node
    dsimp only
    rw [validate_params_good _ _ _ (mkDict_good (by
      intro p hp
      simp only [List.mem_cons, List.not_mem_nil, or_false] at hp
      rcases hp with rfl | rfl | rfl | rfl | rfl | rfl | rfl <;>
        first
          | exact Or.inl ⟨_, rfl, rfl⟩
          | exact Or.inr (Or.inl rfl)))]
    dsimp only
    by_cases hdup : s.dg.nodeMem name = true
    · rw [if_pos hdup]
      simp
    · rw [if_neg hdup]
      rw [hts, contains_false_of_not_mem hnot]
      simp

/-- Witness for C5 at kind "circle". -/
theorem C5_witness :
    (Schematic.channel s0w "x" "y" (PVal.bool false) (PVal.bool false)
      (PVal.bool false) (PVal.bool false) "circle" "None" (PVal.int 1)).2.isSome =
      true ∧
    (Schematic.port fluidDB0 s0w "c" "circle" (PVal.bool false) (PVal.bool false)
      (PVal.bool false) (PVal.bool false) "default").2.isSome = true := by
  refine ⟨(C5_unsupported_kinds_rejected_at_creation fluidDB0).1 s0w "x" "y"
    "None" "circle" (by decide) (by decide), ?_⟩
  exact (C5_unsupported_kinds_rejected_at_creation fluidDB0).2.2.1 s0w "c"
    "circle" "default" (by decide) (by decide)

/-! ### C1: translation precondition is "an output exists", not reachability -/

/-- The node's `kind` attribute exists and is a plain string. -/
def kindStr : Option Attr → Bool
  | some (Attr.val (PVal.str _)) => true
  | _ => false

/-- Some node of the graph carries kind `k`. -/
def hasKindNode (g : DiGraph) (k : String) : Bool :=
  g.nodes.any (fun p => decide (attrLookup p.2 "kind" = some (Attr.val (PVal.str k))))

/-- Every node of the graph has a string `kind` attribute (true of every
state built from the creation operations). -/
def allKinded (g : DiGraph) : Bool :=
  g.nodes.all (fun p => kindStr (attrLookup p.2 "kind"))

theorem scanOutputs_ok {l : List (String × AttrDict)}
    (h : ∀ p ∈ l, kindStr (attrLookup p.2 "kind") = true) :
    scanOutputs l = Except.ok (l.any (fun p =>
      decide (attrLookup p.2 "kind" = some (Attr.val (PVal.str "output"))))) := by
  induction l with
  | nil => rfl
  | cons p rest ih =>
    have hp := h p (List.mem_cons_self _ _)
    cases hk : attrLookup p.2 "kind"
    · rw [hk] at hp
      simp [kindStr] at hp
    · rename_i a
      rw [scanOutputs, hk, ih (fun q hq => h q (List.mem_cons_of_mem _ hq))]
      simp [hk, List.any_cons]

theorem inputPass_no_input (tm : TranslateModule) (g : DiGraph) :
    ∀ (l : List (String × AttrDict)) (hi : Bool) (acc : List Expr),
      (∀ p ∈ l, kindStr (attrLookup p.2 "kind") = true) →
      (∀ p ∈ l, attrLookup p.2 "kind" ≠ some (Attr.val (PVal.str "input"))) →
      inputPass tm g l hi acc = (acc, hi, Option.none) := by
  intro l
  induction l with
  | nil => intro hi acc _ _; rfl
  | cons p rest ih =>
    intro hi acc hall hno
    have hp := hall p (List.mem_cons_self _ _)
    cases hk : attrLookup p.2 "kind"
    · rw [hk] at hp
      simp [kindStr] at hp
    · rename_i a
      rw [inputPass, hk]
      dsimp only
      rw [if_neg (by
        intro hc
        exact hno p (List.mem_cons_self _ _) (by rw [hk, hc]))]
      exact ih hi acc (fun q hq => hall q (List.mem_cons_of_mem _ hq))
        (fun q hq => hno q (List.mem_cons_of_mem _ hq))

theorem inputPass_no_output (tm : TranslateModule) (g : DiGraph)
    (hgall : ∀ p ∈ g.nodes, kindStr (attrLookup p.2 "kind") = true)
    (hno : (g.nodes.any (fun p =>
      decide (attrLookup p.2 "kind" = some (Attr.val (PVal.str "output"))))) = false) :
    ∀ (l : List (String × AttrDict)) (hi : Bool) (acc : List Expr),
      (∀ p ∈ l, kindStr (attrLookup p.2 "kind") = true) →
      (∃ p ∈ l, attrLookup p.2 "kind" = some (Attr.val (PVal.str "input"))) →
      ∃ nm, inputPass tm g l hi acc =
        (acc, true, some (PyError.valueError ("Schematic input " ++ nm ++ " has no output"))) := by
  intro l
  induction l with
  | nil => intro hi acc _ h; simp at h
  | cons p rest ih =>
    intro hi acc hall hex
    have hp := hall p (List.mem_cons_self _ _)
    cases hk : attrLookup p.2 "kind"
    · rw [hk] at hp
      simp [kindStr] at hp
    · rename_i a
      rw [inputPass, hk]
      dsimp only
      by_cases hin : a = Attr.val (PVal.str "input")
      · rw [if_pos hin, scanOutputs_ok hgall, hno]
        exact ⟨p.1, rfl⟩
      · rw [if_neg hin]
        refine ih hi acc (fun q hq => hall q (List.mem_cons_of_mem _ hq)) ?_
        rcases hex with ⟨q, hq, hqk⟩
        rcases List.mem_cons.mp hq with rfl | hmem
        · rw [hk] at hqk
          simp at hqk
          exact absurd hqk hin
        · exact ⟨q, hmem, hqk⟩

theorem inputPass_with_output (tm : TranslateModule) (g : DiGraph)
    (hgall : ∀ p ∈ g.nodes, kindStr (attrLookup p.2 "kind") = true)
    (hyes : (g.nodes.any (fun p =>
      decide (attrLookup p.2 "kind" = some (Attr.val (PVal.str "output"))))) = true) :
    ∀ (l : List (String × AttrDict)) (hi : Bool) (acc : List Expr),
      (∀ p ∈ l, kindStr (attrLookup p.2 "kind") = true) →
      ∃ es, inputPass tm g l hi acc =
        (es, hi || l.any (fun p =>
          decide (attrLookup p.2 "kind" = some (Attr.val (PVal.str "input")))), Option.none) := by
  intro l
  induction l with
  | nil => intro hi acc _; exact ⟨acc, by simp [inputPass]⟩
  | cons p rest ih =>
    intro hi acc hall
    have hp := hall p (List.mem_cons_self _ _)
    cases hk : attrLookup p.2 "kind"
    · rw [hk] at hp
      simp [kindStr] at hp
    · rename_i a
      rw [inputPass, hk]
      dsimp only
      by_cases hin : a = Attr.val (PVal.str "input")
      · rw [if_pos hin, scanOutputs_ok hgall, hyes]
        rcases ih true (acc ++ tm.translate_input g p.1)
          (fun q hq => hall q (List.mem_cons_of_mem _ hq)) with ⟨es, hes⟩
        refine ⟨es, ?_⟩
        rw [hes]
        simp [List.any_cons, hk, hin]
      · rw [if_neg hin]
        rcases ih hi acc (fun q hq => hall q (List.mem_cons_of_mem _ hq)) with ⟨es, hes⟩
        refine ⟨es, ?_⟩
        rw [hes]
        have : decide (attrLookup p.2 "kind" = some (Attr.val (PVal.str "input"))) = false := by
          rw [hk]
          simpa using hin
        simp [List.any_cons, this]

/-- Counterexample to C1 as stated: the fixture `s2w` has an input port "a"
and an output port "b" but no channels at all, so no output is reachable
from the input along channel edges; the claim demands that translation fail
with UnreachableOutput, yet it succeeds. -/
theorem C1_counterexample :
    s2w.dg.edges = [] ∧
    hasKindNode s2w.dg "input" = true ∧
    hasKindNode s2w.dg "output" = true ∧
    (Schematic.translate_schematic tm0 s2w).2 = Option.none := by decide

/-- C1 as amended: with every node kinded, translation fails with the
MissingInput error exactly when no node of kind `input` exists; it fails
with the "has no output" error when an input exists but no node of kind
`output` exists anywhere (regardless of connectivity); and it succeeds
whenever an input node and an output node both exist, even if unconnected. -/
theorem C1_amended_missing_input_and_global_output
    (tm : TranslateModule) (s : Schematic) (hk : allKinded s.dg = true) :
    (hasKindNode s.dg "input" = false →
      Schematic.translate_schematic tm s =
        (s, some (PyError.valueError "Schematic has no input"))) ∧
    (hasKindNode s.dg "input" = true → hasKindNode s.dg "output" = false →
      ∃ nm, Schematic.translate_schematic tm s =
        (s, some (PyError.valueError ("Schematic input " ++ nm ++ " has no output")))) ∧
    (hasKindNode s.dg "input" = true → hasKindNode s.dg "output" = true →
      (Schematic.translate_schematic tm s).2 = Option.none) := by
  have hall : ∀ p ∈ s.dg.nodes, kindStr (attrLookup p.2 "kind") = true := by
    simpa [allKinded, List.all_eq_true] using hk
  refine ⟨?_, ?_, ?_⟩
  · intro hin
    have hno : ∀ p ∈ s.dg.nodes,
        attrLookup p.2 "kind" ≠ some (Attr.val (PVal.str "input")) := by
      simpa [hasKindNode, List.any_eq_false] using hin
    rw [Schematic.translate_schematic,
      inputPass_no_input tm s.dg s.dg.nodes false s.exprs hall hno]
    rfl
  · intro hin hout
    have hex : ∃ p ∈ s.dg.nodes,
        attrLookup p.2 "kind" = some (Attr.val (PVal.str "input")) := by
      simpa [hasKindNode, List.any_eq_true] using hin
    have hno : (s.dg.nodes.any (fun p =>
        decide (attrLookup p.2 "kind" = some (Attr.val (PVal.str "output"))))) = false := hout
    rcases inputPass_no_output tm s.dg hall hno s.dg.nodes false s.exprs hall hex with ⟨nm, hip⟩
    refine ⟨nm, ?_⟩
    rw [Schematic.translate_schematic, hip]
  · intro hin hout
    rcases inputPass_with_output tm s.dg hall hout s.dg.nodes false s.exprs hall with ⟨es, hip⟩
    rw [Schematic.translate_schematic, hip]
    dsimp only
    have hb : (false || s.dg.nodes.any (fun p =>
        decide (attrLookup p.2 "kind" = some (Attr.val (PVal.str "input"))))) = true := by
      rw [Bool.false_or]
      exact hin
    rw [if_neg (by rw [hb]; simp)]

/-- Witness for the amended C1. -/
theorem C1_amended_witness :
    Schematic.translate_schematic tm0 s0w =
      (s0w, some (PyError.valueError "Schematic has no input")) ∧
    (Schematic.translate_schematic tm0 s3w).2 = Option.none := by
  refine ⟨(C1_amended_missing_input_and_global_output tm0 s0w (by decide)).1 (by decide), ?_⟩
  exact (C1_amended_missing_input_and_global_output tm0 s3w (by decide)).2.2
    (by decide) (by decide)

/-! ### C9: the unsatisfiable outcome is a bare string, and to_json dies on it -/

/-- C9: when the decision procedure reports unsatisfiable, `solve` returns
the plain string "No solution found" as a success value, and `to_json` then
raises AttributeError while iterating `output.items()`, producing no IR. -/
theorem C9_no_solution_string_breaks_to_json
    (tm : TranslateModule) (cs : List Expr → Option DrealModel) (s s2 : Schematic)
    (htr : Schematic.translate_schematic tm s = (s2, Option.none))
    (hunsat : cs s2.exprs = Option.none) :
    Schematic.solve tm cs s false =
      (s2, Except.ok (BackendResult.str "No solution found")) ∧
    Schematic.to_json tm cs s =
      (s2, Except.error (PyError.attributeError "str object has no attribute items")) := by
  have hsolve : Schematic.solve tm cs s false =
      (s2, Except.ok (BackendResult.str "No solution found")) := by
    unfold Schematic.solve
    rw [htr]
    dsimp only
    unfold Schematic.invoke_backend
    rw [hunsat]
  refine ⟨hsolve, ?_⟩
  unfold Schematic.to_json
  dsimp only
  rw [hsolve]

/-- Witness for C9 on the two-port fixture with an always-unsat backend. -/
theorem C9_witness :
    Schematic.solve tm0 cs0 s2w false =
      (s2w, Except.ok (BackendResult.str "No solution found")) ∧
    Schematic.to_json tm0 cs0 s2w =
      (s2w, Except.error (PyError.attributeError "str object has no attribute items")) :=
  C9_no_solution_string_breaks_to_json tm0 cs0 s2w s2w (by decide) rfl

/-! ### C7: solving twice re-translates into the same constraint set -/

/-- An assignment satisfies the accumulated constraint list (the meaning of
the conjunction handed to the solver), for any semantics of the opaque
constraint atoms. -/
def satisfiesAll (sem : Expr → (String → ℚ) → Bool) (ρ : String → ℚ)
    (es : List Expr) : Prop :=
  ∀ e ∈ es, sem e ρ = true

theorem inputPass_acc (tm : TranslateModule) (g : DiGraph) :
    ∀ (l : List (String × AttrDict)) (hi : Bool) (acc : List Expr),
      inputPass tm g l hi acc =
        (acc ++ (inputPass tm g l hi []).1, (inputPass tm g l hi []).2.1,
         (inputPass tm g l hi []).2.2) := by
  intro l
  induction l with
  | nil => intro hi acc; simp [inputPass]
  | cons p rest ih =>
    intro hi acc
    cases hk : attrLookup p.2 "kind"
    · rw [inputPass, inputPass, hk]
      simp
    · rename_i a
      rw [inputPass, inputPass, hk]
      dsimp only
      by_cases hin : a = Attr.val (PVal.str "input")
      · subst hin
        cases hsc : scanOutputs g.nodes
        · simp
        · rename_i b
          cases b
          · simp
          · dsimp only
            rw [if_pos rfl, if_pos rfl]
            rw [ih true (acc ++ tm.translate_input g p.1),
              ih true ([] ++ tm.translate_input g p.1)]
            simp
      · rw [if_neg hin, if_neg hin]
        rw [ih hi acc, ih hi []]

theorem foldl_append_acc {α β : Type} (f : β → List α) :
    ∀ (l : List β) (es : List α),
      l.foldl (fun a p => a ++ f p) es = es ++ l.foldl (fun a p => a ++ f p) [] := by
  intro l
  induction l with
  | nil => intro es; simp
  | cons x xs ih =>
    intro es
    simp only [List.foldl]
    rw [ih (es ++ f x), ih ([] ++ f x)]
    simp

/-- A successful translation appends a trailer determined only by the graph
and the dimensions, leaving everything else untouched. -/
theorem translate_schematic_delta (tm : TranslateModule) (s s2 : Schematic)
    (h : Schematic.translate_schematic tm s = (s2, Option.none)) :
    s2.dg = s.dg ∧ s2.dim = s.dim ∧
    s2.translation_strats = s.translation_strats ∧
    ∃ δ, s2.exprs = s.exprs ++ δ ∧
      ∀ s3 : Schematic, s3.dg = s.dg → s3.dim = s.dim →
        Schematic.translate_schematic tm s3 =
          ({ s3 with exprs := s3.exprs ++ δ }, Option.none) := by
  unfold Schematic.translate_schematic at h ⊢
  rw [inputPass_acc tm s.dg s.dg.nodes false s.exprs] at h
  rcases he : (inputPass tm s.dg s.dg.nodes false []).2.2 with _ | e
  · rw [he] at h
    dsimp only at h
    rcases hb : (inputPass tm s.dg s.dg.nodes false []).2.1 with _ | _
    · rw [hb] at h
      simp at h
    · rw [hb] at h
      simp only [Bool.true_eq_false, if_false] at h
      rw [foldl_append_acc] at h
      have h1 := congrArg Prod.fst h
      dsimp only at h1
      refine ⟨by rw [← h1], by rw [← h1], by rw [← h1], ?_⟩
      refine ⟨(inputPass tm s.dg s.dg.nodes false []).1 ++
        (s.dg.nodes.foldl (fun a p => a ++ tm.translate_chip s.dg p.1 s.dim) []), ?_, ?_⟩
      · rw [← h1]
        simp
      · intro s3 h3g h3d
        rw [h3g, h3d]
        rw [inputPass_acc tm s.dg s.dg.nodes false s3.exprs, he, hb]
        dsimp only
        simp only [Bool.true_eq_false, if_false]
        rw [foldl_append_acc]
        simp
  · rw [he] at h
    simp at h

set_option maxHeartbeats 1000000 in
/-- C7: running `solve` a second time on the unmodified graph leaves the
graph alone, accumulates an expression list with the same underlying
constraint set (the list is the first run's list plus a repetition of the
same trailer), hence a conjunction satisfied by exactly the same
assignments; and with the external solver extensional in the constraint set
the second backend answer, and the whole produced IR, coincide with the
first run's. -/
theorem C7_second_solve_idempotent
    (tm : TranslateModule) (cs : List Expr → Option DrealModel)
    (s s1 s2 : Schematic) (r1 r2 : BackendResult)
    (hext : ∀ e1 e2 : List Expr, e1.toFinset = e2.toFinset → cs e1 = cs e2)
    (h1 : Schematic.solve tm cs s false = (s1, Except.ok r1))
    (h2 : Schematic.solve tm cs s1 false = (s2, Except.ok r2)) :
    s2.dg = s1.dg ∧ s2.exprs.toFinset = s1.exprs.toFinset ∧ r2 = r1 ∧
    (∀ (sem : Expr → (String → ℚ) → Bool) (ρ : String → ℚ),
      satisfiesAll sem ρ s2.exprs ↔ satisfiesAll sem ρ s1.exprs) ∧
    (Schematic.to_json tm cs s1).2 = (Schematic.to_json tm cs s).2 := by
  have hsolve1 := h1
  have hsolve2 := h2
  unfold Schematic.solve at h1 h2
  rcases htr1 : Schematic.translate_schematic tm s with ⟨t1, o1⟩
  rw [htr1] at h1
  cases o1
  · dsimp only at h1
    simp only [Prod.mk.injEq, Except.ok.injEq] at h1
    rcases htr2 : Schematic.translate_schematic tm s1 with ⟨t2, o2⟩
    rw [htr2] at h2
    cases o2
    · dsimp only at h2
      simp only [Prod.mk.injEq, Except.ok.injEq] at h2
      rcases translate_schematic_delta tm s t1 htr1 with ⟨hg, hd, hts, δ, hδ, hgen⟩
      have hgen1 := hgen s1 (by rw [← h1.1, hg]) (by rw [← h1.1, hd])
      rw [htr2] at hgen1
      have ht2 : t2 = { s1 with exprs := s1.exprs ++ δ } := by
        have := congrArg Prod.fst hgen1
        simpa using this
      have hs2exprs : s2.exprs = s1.exprs ++ δ := by
        rw [← h2.1, ht2]
      have hs2dg : s2.dg = s1.dg := by
        rw [← h2.1, ht2]
      have hs1exprs : s1.exprs = s.exprs ++ δ := by
        rw [← h1.1, hδ]
      have hsub : δ.toFinset ⊆ s1.exprs.toFinset := by
        rw [hs1exprs]
        intro x hx
        simp only [List.toFinset_append, Finset.mem_union]
        exact Or.inr hx
      have hsets : s2.exprs.toFinset = s1.exprs.toFinset := by
        rw [hs2exprs]
        simp only [List.toFinset_append]
        exact Finset.union_eq_left.mpr hsub
      have hcs : cs s2.exprs = cs s1.exprs := hext _ _ hsets
      have hr : r2 = r1 := by
        rw [← h2.2, ← h1.2, h2.1, h1.1]
        unfold Schematic.invoke_backend
        rw [hcs]
      refine ⟨hs2dg, hsets, hr, ?_, ?_⟩
      · intro sem ρ
        constructor <;> intro hsat e he <;> apply hsat
        · rw [← List.mem_toFinset, hsets, List.mem_toFinset]
          exact he
        · rw [← List.mem_toFinset, ← hsets, List.mem_toFinset]
          exact he
      · unfold Schematic.to_json
        rw [hsolve1, hsolve2, hr]
        have hgg : s1.dg = s.dg := by rw [← h1.1, hg]
        rw [hgg]
        cases r1 with
        | str msg => rfl
        | model m =>
          dsimp only
          cases projectModel m (nxLinkList s.dg) (nxNodeList s.dg) with
          | error e => rfl
          | ok p =>
            obtain ⟨links2, nodes2⟩ := p
            dsimp only
            cases buildNodes 0 nodes2 with
            | error e => rfl
            | ok t =>
              obtain ⟨ns, ps, nts⟩ := t
              rfl
    · dsimp only at h2
      simp at h2
  · dsimp only at h1
    simp at h1

/-- A backend that always returns the empty model (trivially extensional). -/
def csm : List Expr → Option DrealModel := fun _ => some []

/-- A translate module emitting one atom per rule application, so that the
second run visibly duplicates the expression list. -/
def tmE : TranslateModule :=
  { translate_input := fun _ n => [Expr.pred "input" [n]],
    translate_chip := fun _ n _ => [Expr.pred "chip" [n]] }

/-- Witness for C7 on the two-port fixture. -/
theorem C7_witness :
    ((Schematic.solve tmE csm (Schematic.solve tmE csm s2w false).1 false).1).exprs.toFinset =
      ((Schematic.solve tmE csm s2w false).1).exprs.toFinset ∧
    (Schematic.to_json tmE csm (Schematic.solve tmE csm s2w false).1).2 =
      (Schematic.to_json tmE csm s2w).2 := by
  have h := C7_second_solve_idempotent tmE csm s2w
    (Schematic.solve tmE csm s2w false).1
    (Schematic.solve tmE csm (Schematic.solve tmE csm s2w false).1 false).1
    (BackendResult.model []) (BackendResult.model [])
    (fun _ _ _ => rfl) rfl rfl
  exact ⟨h.2.1, h.2.2.2.2⟩

/-! ### C8 support: dictionary lemmas, a closed form for the projection loop,
and a closed form for the IR builders -/

theorem attrLookup_attrSet_self : ∀ (d : AttrDict) (k : String) (a : Attr),
    attrLookup (attrSet d k a) k = some a := by
  intro d
  induction d with
  | nil => intro k a; simp [attrSet, attrLookup]
  | cons p rest ih =>
    intro k a
    obtain ⟨k0, a0⟩ := p
    rw [attrSet]
    split
    · rename_i h
      rw [attrLookup, if_pos h.symm]
    · rename_i h
      rw [attrLookup, if_neg (fun hk => h hk.symm)]
      exact ih k a

theorem attrLookup_attrSet_ne : ∀ (d : AttrDict) (k : String) (a : Attr) (q : String)
    (_hq : q ≠ k), attrLookup (attrSet d k a) q = attrLookup d q := by
  intro d
  induction d with
  | nil =>
    intro k a q hq
    simp [attrSet, attrLookup, hq]
  | cons p rest ih =>
    intro k a q hq
    obtain ⟨k0, a0⟩ := p
    rw [attrSet]
    split
    · rename_i h
      subst h
      rw [attrLookup, attrLookup, if_neg hq, if_neg hq]
    · rw [attrLookup, attrLookup]
      split
      · rfl
      · exact ih k a q hq

theorem attrLookup_filter_stat {d : AttrDict} {k : String} {a : Attr}
    (p : String × Attr → Bool) (h : attrLookup d k = some a) (hp : p (k, a) = true) :
    attrLookup (d.filter p) k = some a := by
  induction d with
  | nil => simp [attrLookup] at h
  | cons q rest ih =>
    obtain ⟨k0, a0⟩ := q
    rw [attrLookup] at h
    by_cases hk : k = k0
    · rw [if_pos hk] at h
      simp only [Option.some.injEq] at h
      subst hk; subst h
      rw [List.filter_cons, if_pos hp, attrLookup, if_pos rfl]
    · rw [if_neg hk] at h
      rw [List.filter_cons]
      split
      · rw [attrLookup, if_neg hk]
        exact ih h
      · exact ih h

/-- Head-part / written-key data of one solved variable when its name is
split on `"_"`: the node half of the projection loop matches `parts[0]`
against the node's `id`. -/
def condN (v : String × ℚ × ℚ) (d : AttrDict) : Bool :=
  attrEqStr (attrLookup d "id") ((pySplit v.1).headD "")

/-- Key the node half writes: `"_".join(parts[1:])`. -/
def wkeyN (v : String × ℚ × ℚ) : String :=
  String.intercalate "_" ((pySplit v.1).drop 1)

/-- The link half matches `parts[0]` against `source` and `parts[1]`
against `target`. -/
def condL (v : String × ℚ × ℚ) (d : AttrDict) : Bool :=
  attrEqStr (attrLookup d "source") ((pySplit v.1).headD "") &&
    attrEqStr (attrLookup d "target") ((pySplit v.1).getD 1 "")

/-- Key the link half writes: `"_".join(parts[2:])`. -/
def wkeyL (v : String × ℚ × ℚ) : String :=
  String.intercalate "_" ((pySplit v.1).drop 2)

/-- One projection step on one dictionary, abstract in the match condition
and the written key. -/
def applyVar (cond : (String × ℚ × ℚ) → AttrDict → Bool)
    (wkey : (String × ℚ × ℚ) → String) (v : String × ℚ × ℚ) (d : AttrDict) : AttrDict :=
  if cond v d then attrSet d (wkey v) (Attr.interval v.2.1 v.2.2) else d

/-- The whole model applied to one dictionary, entry after entry. -/
def applyVars (cond : (String × ℚ × ℚ) → AttrDict → Bool)
    (wkey : (String × ℚ × ℚ) → String) (m : DrealModel) (d : AttrDict) : AttrDict :=
  m.foldl (fun d v => applyVar cond wkey v d) d

/-- All keys the node half of the projection may write. -/
def nodeWriteKeys (m : DrealModel) : List String := m.map wkeyN

/-- All keys the link half of the projection may write. -/
def linkWriteKeys (m : DrealModel) : List String := m.map wkeyL

theorem attrLookup_applyVar_ne (cond : (String × ℚ × ℚ) → AttrDict → Bool)
    (wkey : (String × ℚ × ℚ) → String) (v : String × ℚ × ℚ) (d : AttrDict)
    (q : String) (hq : q ≠ wkey v) :
    attrLookup (applyVar cond wkey v d) q = attrLookup d q := by
  rw [applyVar]
  split
  · exact attrLookup_attrSet_ne d (wkey v) _ q hq
  · rfl

theorem attrLookup_applyVars_notin (cond : (String × ℚ × ℚ) → AttrDict → Bool)
    (wkey : (String × ℚ × ℚ) → String) :
    ∀ (m : DrealModel) (d : AttrDict) (q : String),
      (∀ v ∈ m, q ≠ wkey v) →
      attrLookup (applyVars cond wkey m d) q = attrLookup d q := by
  intro m
  induction m with
  | nil => intro d q _; rfl
  | cons v rest ih =>
    intro d q hq
    rw [applyVars, List.foldl_cons]
    have h1 := ih (applyVar cond wkey v d) q (fun w hw => hq w (List.mem_cons_of_mem _ hw))
    rw [applyVars] at h1
    rw [h1]
    exact attrLookup_applyVar_ne cond wkey v d q (hq v (List.mem_cons_self _ _))

theorem attrLookup_applyVars_cases (cond : (String × ℚ × ℚ) → AttrDict → Bool)
    (wkey : (String × ℚ × ℚ) → String) :
    ∀ (m : DrealModel) (d : AttrDict) (q : String),
      attrLookup (applyVars cond wkey m d) q = attrLookup d q ∨
        ∃ v ∈ m, q = wkey v ∧
          attrLookup (applyVars cond wkey m d) q = some (Attr.interval v.2.1 v.2.2) := by
  intro m
  induction m with
  | nil => intro d q; exact Or.inl rfl
  | cons v rest ih =>
    intro d q
    have hstep : applyVars cond wkey (v :: rest) d =
        applyVars cond wkey rest (applyVar cond wkey v d) := rfl
    rcases ih (applyVar cond wkey v d) q with h | ⟨w, hw, hkq, hval⟩
    · rw [hstep, h]
      by_cases hq : q = wkey v
      · rw [applyVar]
        split
        · subst hq
          right
          exact ⟨v, List.mem_cons_self _ _, rfl, by rw [attrLookup_attrSet_self]⟩
        · exact Or.inl rfl
      · rw [attrLookup_applyVar_ne cond wkey v d q hq]
        exact Or.inl rfl
    · right
      exact ⟨w, List.mem_cons_of_mem _ hw, hkq, by rw [hstep]; exact hval⟩

theorem mem_applyVars (cond : (String × ℚ × ℚ) → AttrDict → Bool)
    (wkey : (String × ℚ × ℚ) → String) :
    ∀ (m : DrealModel) (d : AttrDict) (p : String × Attr),
      p ∈ applyVars cond wkey m d →
      p ∈ d ∨ ∃ v ∈ m, p = (wkey v, Attr.interval v.2.1 v.2.2) := by
  intro m
  induction m with
  | nil => intro d p h; exact Or.inl h
  | cons v rest ih =>
    intro d p h
    rcases ih (applyVar cond wkey v d) p h with h2 | ⟨w, hw, hp⟩
    · rw [applyVar] at h2
      rcases mem_attrSet_ite h2 with h3 | h3
      · exact Or.inl h3
      · exact Or.inr ⟨v, List.mem_cons_self _ _, h3⟩
    · exact Or.inr ⟨w, List.mem_cons_of_mem _ hw, hp⟩

theorem applyVars_solved (cond : (String × ℚ × ℚ) → AttrDict → Bool)
    (wkey : (String × ℚ × ℚ) → String) (v : String × ℚ × ℚ) :
    ∀ (m : DrealModel) (d : AttrDict),
      v ∈ m →
      (∀ w ∈ m, ∀ d2 : AttrDict, cond v (applyVar cond wkey w d2) = cond v d2) →
      cond v d = true →
      ∃ w ∈ m, attrLookup (applyVars cond wkey m d) (wkey v) =
        some (Attr.interval w.2.1 w.2.2) := by
  intro m
  induction m with
  | nil => intro d hv; exact absurd hv (List.not_mem_nil v)
  | cons w0 rest ih =>
    intro d hv hstable hc
    have hstep : applyVars cond wkey (w0 :: rest) d =
        applyVars cond wkey rest (applyVar cond wkey w0 d) := rfl
    rcases List.mem_cons.mp hv with hea | hmem
    · subst hea
      have hd2 : attrLookup (applyVar cond wkey v d) (wkey v) =
          some (Attr.interval v.2.1 v.2.2) := by
        rw [applyVar, if_pos hc]
        exact attrLookup_attrSet_self _ _ _
      rcases attrLookup_applyVars_cases cond wkey rest (applyVar cond wkey v d) (wkey v) with
        h | ⟨w, hw, _, hval⟩
      · exact ⟨v, List.mem_cons_self _ _, by rw [hstep, h, hd2]⟩
      · exact ⟨w, List.mem_cons_of_mem _ hw, by rw [hstep]; exact hval⟩
    · have hc2 : cond v (applyVar cond wkey w0 d) = true := by
        rw [hstable w0 (List.mem_cons_self _ _) d, hc]
      rcases ih (applyVar cond wkey w0 d) hmem
          (fun w hw d2 => hstable w (List.mem_cons_of_mem _ hw) d2) hc2 with ⟨w, hw, hval⟩
      exact ⟨w, List.mem_cons_of_mem _ hw, by rw [hstep]; exact hval⟩

theorem projNodes_eq_map (vn : String) (lb ub : ℚ) (ds : List AttrDict) :
    projNodes (pySplit vn) lb ub ds = ds.map (applyVar condN wkeyN (vn, lb, ub)) := by
  rfl

theorem projLinks_eq_map (vn : String) (lb ub : ℚ)
    (h2 : 2 ≤ (pySplit vn).length) :
    ∀ ds : List AttrDict,
      projLinks (pySplit vn) lb ub ds =
        Except.ok (ds.map (applyVar condL wkeyL (vn, lb, ub))) := by
  match hp : pySplit vn with
  | [] => rw [hp] at h2; simp at h2
  | [p0] => rw [hp] at h2; simp at h2
  | p0 :: p1 :: prest =>
    have hcd : ∀ d : AttrDict, applyVar condL wkeyL (vn, lb, ub) d =
        if attrEqStr (attrLookup d "source") p0 then
          (if attrEqStr (attrLookup d "target") p1 then
            attrSet d (String.intercalate "_" prest) (Attr.interval lb ub)
          else d)
        else d := by
      intro d
      rw [applyVar, condL, wkeyL, hp]
      by_cases hs : attrEqStr (attrLookup d "source") p0
      · by_cases ht : attrEqStr (attrLookup d "target") p1
        · simp [hs, ht]
        · simp [hs, ht]
      · simp [hs]
    intro ds
    induction ds with
    | nil => rfl
    | cons d rest ih =>
      rw [projLinks]
      simp only [List.headD, List.get?, List.drop_succ_cons, List.drop_zero]
      split
      · rename_i hsrc
        rw [ih]
        dsimp only [Except.map]
        rw [List.map_cons, hcd d, if_pos hsrc]
      · rename_i hsrc
        rw [ih]
        dsimp only [Except.map]
        rw [List.map_cons, hcd d, if_neg hsrc]

theorem projectModel_eq :
    ∀ (m : DrealModel) (links nodes : List AttrDict),
      (∀ v ∈ m, 2 ≤ (pySplit v.1).length) →
      projectModel m links nodes =
        Except.ok (links.map (applyVars condL wkeyL m),
          nodes.map (applyVars condN wkeyN m)) := by
  intro m
  induction m with
  | nil =>
    intro links nodes _
    have hid : ∀ (cond : (String × ℚ × ℚ) → AttrDict → Bool)
        (wkey : (String × ℚ × ℚ) → String) (l : List AttrDict),
        l.map (applyVars cond wkey []) = l := by
      intro cond wkey l
      induction l with
      | nil => rfl
      | cons x xs ih2 => rw [List.map_cons, ih2]; rfl
    rw [projectModel, hid, hid]
  | cons v rest ih =>
    intro links nodes hparts
    obtain ⟨vn, lb, ub⟩ := v
    rw [projectModel]
    rw [projLinks_eq_map vn lb ub (hparts (vn, lb, ub) (List.mem_cons_self _ _)) links]
    dsimp only
    rw [projNodes_eq_map vn lb ub nodes]
    rw [ih _ _ (fun w hw => hparts w (List.mem_cons_of_mem _ hw))]
    simp only [List.map_map, Except.ok.injEq, Prod.mk.injEq]
    constructor
    · apply List.map_congr_left
      intro d _
      rfl
    · apply List.map_congr_left
      intro d _
      rfl

/-- Kinds that land in `portTypes` rather than `nodeTypes`. -/
def isPortKind (a : Attr) : Bool :=
  decide (a = Attr.val (PVal.str "input") ∨ a = Attr.val (PVal.str "output"))

/-- One `nodes` entry as built from a projected dictionary. -/
def nodeEntryOf (d : AttrDict) : IRNode :=
  ⟨(attrLookup d "kind").getD (Attr.val PVal.none),
    (attrLookup d "id").getD (Attr.val PVal.none), nodeEntryAttrs d⟩

/-- Closed form of the `nodes` section built from index `i` on. -/
def nsF (i : Nat) (ds : List AttrDict) : List (String × IRNode) :=
  (ds.enumFrom i).map (fun p => ("pT" ++ toString p.1, nodeEntryOf p.2))

/-- Closed form of the `portTypes` section. -/
def psF (i : Nat) (ds : List AttrDict) : List (String × PortTypeEntry) :=
  (nsF i ds).filterMap (fun e =>
    if isPortKind e.2.typeN then some (e.1, ⟨e.2.typeN, e.2.attributes⟩) else none)

/-- Closed form of the `nodeTypes` section. -/
def ntsF (i : Nat) (ds : List AttrDict) : List (String × PortTypeEntry) :=
  (nsF i ds).filterMap (fun e =>
    if isPortKind e.2.typeN then none else some (e.1, ⟨e.2.typeN, e.2.attributes⟩))

theorem length_filterMap_ite {α β γ : Type} (p : α → Bool) (f : α → β) (g : α → γ) :
    ∀ l : List α,
      (l.filterMap (fun a => if p a then some (f a) else none)).length +
        (l.filterMap (fun a => if p a then none else some (g a))).length = l.length := by
  intro l
  induction l with
  | nil => rfl
  | cons a rest ih =>
    cases hpa : p a <;> simp [List.filterMap_cons, hpa] <;> omega

theorem buildNodes_eq :
    ∀ (ds : List AttrDict) (i : Nat),
      (∀ d ∈ ds, (attrLookup d "kind").isSome ∧ (attrLookup d "id").isSome) →
      buildNodes i ds = Except.ok (nsF i ds, psF i ds, ntsF i ds) := by
  intro ds
  induction ds with
  | nil => intro i _; rfl
  | cons d rest ih =>
    intro i hok
    obtain ⟨hk, hi⟩ := hok d (List.mem_cons_self _ _)
    rcases hkv : attrLookup d "kind" with _ | kv
    · rw [hkv] at hk; simp at hk
    rcases hiv : attrLookup d "id" with _ | idv
    · rw [hiv] at hi; simp at hi
    rw [buildNodes, hkv, hiv]
    dsimp only
    rw [ih (i + 1) (fun e he => hok e (List.mem_cons_of_mem _ he))]
    dsimp only
    have hnsF : nsF i (d :: rest) = ("pT" ++ toString i, nodeEntryOf d) :: nsF (i + 1) rest := by
      rw [nsF, List.enumFrom_cons, List.map_cons]
      rfl
    have hentry : nodeEntryOf d = ⟨kv, idv, nodeEntryAttrs d⟩ := by
      rw [nodeEntryOf, hkv, hiv]
      rfl
    by_cases hport : kv = Attr.val (PVal.str "input") ∨ kv = Attr.val (PVal.str "output")
    · rw [if_pos hport]
      have hpk : isPortKind (nodeEntryOf d).typeN = true := by
        rw [hentry]
        exact decide_eq_true hport
      have hpsF : psF i (d :: rest) =
          ("pT" ++ toString i, ⟨(nodeEntryOf d).typeN, (nodeEntryOf d).attributes⟩) ::
            psF (i + 1) rest := by
        rw [psF, hnsF, List.filterMap_cons]
        dsimp only
        rw [if_pos hpk]
        rfl
      have hntsF : ntsF i (d :: rest) = ntsF (i + 1) rest := by
        rw [ntsF, hnsF, List.filterMap_cons]
        dsimp only
        rw [if_pos hpk]
        rfl
      rw [hnsF, hpsF, hntsF, hentry]
    · rw [if_neg hport]
      have hpk : isPortKind (nodeEntryOf d).typeN = false := by
        rw [hentry]
        exact decide_eq_false hport
      have hpsF : psF i (d :: rest) = psF (i + 1) rest := by
        rw [psF, hnsF, List.filterMap_cons]
        dsimp only
        rw [if_neg (by rw [hpk]; exact Bool.false_ne_true)]
        rfl
      have hntsF : ntsF i (d :: rest) =
          ("pT" ++ toString i, ⟨(nodeEntryOf d).typeN, (nodeEntryOf d).attributes⟩) ::
            ntsF (i + 1) rest := by
        rw [ntsF, hnsF, List.filterMap_cons]
        dsimp only
        rw [if_neg (by rw [hpk]; exact Bool.false_ne_true)]
        rfl
      rw [hnsF, hpsF, hntsF, hentry]

theorem ne_wkey_of_notin {m : DrealModel} {k : String}
    {wkey : (String × ℚ × ℚ) → String} (h : k ∉ m.map wkey) :
    ∀ v ∈ m, k ≠ wkey v := by
  intro v hv heq
  exact h (heq ▸ List.mem_map_of_mem wkey hv)

theorem buildConnections_length (l : List AttrDict) :
    (buildConnections l).length = l.length := by
  simp [buildConnections, List.enum_length]

theorem buildConnections_get (l : List AttrDict) (j : Nat)
    (hj : j < (buildConnections l).length) (hj2 : j < l.length) :
    (buildConnections l).get ⟨j, hj⟩ = ("ch" ++ toString j, connOf (l.get ⟨j, hj2⟩)) := by
  simp [buildConnections, List.get_eq_getElem, List.getElem_map, List.getElem_enum]

theorem nsF_length (i : Nat) (l : List AttrDict) : (nsF i l).length = l.length := by
  simp [nsF, List.enumFrom_length]

theorem nsF_get (l : List AttrDict) (j : Nat)
    (hj : j < (nsF 0 l).length) (hj2 : j < l.length) :
    (nsF 0 l).get ⟨j, hj⟩ = ("pT" ++ toString j, nodeEntryOf (l.get ⟨j, hj2⟩)) := by
  simp [nsF, List.get_eq_getElem, List.getElem_map, List.getElem_enumFrom]

theorem projected_link_get (g : DiGraph) (m : DrealModel) (j : Nat)
    (hj : j < ((nxLinkList g).map (applyVars condL wkeyL m)).length)
    (hj2 : j < g.edges.length) :
    ((nxLinkList g).map (applyVars condL wkeyL m)).get ⟨j, hj⟩ =
      applyVars condL wkeyL m
        (attrSet (attrSet (g.edges.get ⟨j, hj2⟩).2 "source"
            (Attr.val (PVal.str (g.edges.get ⟨j, hj2⟩).1.1))) "target"
          (Attr.val (PVal.str (g.edges.get ⟨j, hj2⟩).1.2))) := by
  simp [nxLinkList, List.get_eq_getElem, List.getElem_map]

theorem projected_node_get (g : DiGraph) (m : DrealModel) (j : Nat)
    (hj : j < ((nxNodeList g).map (applyVars condN wkeyN m)).length)
    (hj2 : j < g.nodes.length) :
    ((nxNodeList g).map (applyVars condN wkeyN m)).get ⟨j, hj⟩ =
      applyVars condN wkeyN m
        (attrSet (g.nodes.get ⟨j, hj2⟩).2 "id"
          (Attr.val (PVal.str (g.nodes.get ⟨j, hj2⟩).1))) := by
  simp [nxNodeList, List.get_eq_getElem, List.getElem_map]

theorem lookup_projected_source (m : DrealModel) (orig : AttrDict) (a b : String)
    (hsrcw : "source" ∉ linkWriteKeys m) :
    attrLookup (applyVars condL wkeyL m
        (attrSet (attrSet orig "source" (Attr.val (PVal.str a))) "target"
          (Attr.val (PVal.str b)))) "source" = some (Attr.val (PVal.str a)) := by
  rw [attrLookup_applyVars_notin condL wkeyL m _ _ (ne_wkey_of_notin hsrcw)]
  rw [attrLookup_attrSet_ne _ _ _ _ (by simp)]
  exact attrLookup_attrSet_self _ _ _

theorem lookup_projected_target (m : DrealModel) (orig : AttrDict) (a b : String)
    (htgtw : "target" ∉ linkWriteKeys m) :
    attrLookup (applyVars condL wkeyL m
        (attrSet (attrSet orig "source" (Attr.val (PVal.str a))) "target"
          (Attr.val (PVal.str b)))) "target" = some (Attr.val (PVal.str b)) := by
  rw [attrLookup_applyVars_notin condL wkeyL m _ _ (ne_wkey_of_notin htgtw)]
  exact attrLookup_attrSet_self _ _ _

theorem lookup_projected_id (m : DrealModel) (orig : AttrDict) (name : String)
    (hidw : "id" ∉ nodeWriteKeys m) :
    attrLookup (applyVars condN wkeyN m
        (attrSet orig "id" (Attr.val (PVal.str name)))) "id" =
      some (Attr.val (PVal.str name)) := by
  rw [attrLookup_applyVars_notin condN wkeyN m _ _ (ne_wkey_of_notin hidw)]
  exact attrLookup_attrSet_self _ _ _

theorem lookup_projected_kind (m : DrealModel) (orig : AttrDict) (name : String)
    (hkindw : "kind" ∉ nodeWriteKeys m) :
    attrLookup (applyVars condN wkeyN m
        (attrSet orig "id" (Attr.val (PVal.str name)))) "kind" =
      attrLookup orig "kind" := by
  rw [attrLookup_applyVars_notin condN wkeyN m _ _ (ne_wkey_of_notin hkindw)]
  exact attrLookup_attrSet_ne _ _ _ _ (by simp)

set_option maxHeartbeats 2000000 in
/-- C8: under a satisfiable solve whose model variable names follow the
`name_attr` / `from_to_attr` convention (at least two `"_"`-separated
parts, never writing the bookkeeping keys `id`, `kind`, `source`,
`target`, `port_from`, `port_to`), and with every node carrying a `kind`,
`to_json` returns an IR with exactly one sequentially keyed `ch<i>`
connections entry per channel carrying its endpoints, exactly one
sequentially keyed `pT<i>` nodes entry per node carrying its name and
kind, ports (kind input/output) registered under `portTypes` and all
other nodes under `nodeTypes`, static non-Variable attributes preserved
unchanged, solved attributes present as `(lower, upper)` intervals with
`lower ≤ upper`, every IR attribute either an original static value or
such an interval, and raw symbolic variables excluded. -/
theorem C8_ir_structure
    (tm : TranslateModule) (cs : List Expr → Option DrealModel)
    (s t : Schematic) (m : DrealModel)
    (hsolve : Schematic.solve tm cs s false = (t, Except.ok (BackendResult.model m)))
    (hparts : ∀ v ∈ m, 2 ≤ (pySplit v.1).length)
    (hub : ∀ v ∈ m, v.2.1 ≤ v.2.2)
    (hidw : "id" ∉ nodeWriteKeys m)
    (hkindw : "kind" ∉ nodeWriteKeys m)
    (hsrcw : "source" ∉ linkWriteKeys m)
    (htgtw : "target" ∉ linkWriteKeys m)
    (hpfw : "port_from" ∉ linkWriteKeys m)
    (hptw : "port_to" ∉ linkWriteKeys m)
    (hkind : ∀ p ∈ s.dg.nodes, (attrLookup p.2 "kind").isSome = true) :
    ∃ ir : ManifoldIR,
      Schematic.to_json tm cs s = (t, Except.ok ir) ∧
      ir.connections.length = s.dg.edges.length ∧
      (∀ j (hj : j < ir.connections.length),
        (ir.connections.get ⟨j, hj⟩).1 = "ch" ++ toString j) ∧
      (∀ j (hj : j < ir.connections.length) (hj2 : j < s.dg.edges.length),
        (ir.connections.get ⟨j, hj⟩).2.fromN =
            some (Attr.val (PVal.str (s.dg.edges.get ⟨j, hj2⟩).1.1)) ∧
          (ir.connections.get ⟨j, hj⟩).2.toN =
            some (Attr.val (PVal.str (s.dg.edges.get ⟨j, hj2⟩).1.2))) ∧
      ir.nodesIR.length = s.dg.nodes.length ∧
      (∀ j (hj : j < ir.nodesIR.length),
        (ir.nodesIR.get ⟨j, hj⟩).1 = "pT" ++ toString j) ∧
      (∀ j (hj : j < ir.nodesIR.length) (hj2 : j < s.dg.nodes.length),
        (ir.nodesIR.get ⟨j, hj⟩).2.portAttrs =
            Attr.val (PVal.str (s.dg.nodes.get ⟨j, hj2⟩).1) ∧
          ∀ kv, attrLookup (s.dg.nodes.get ⟨j, hj2⟩).2 "kind" = some kv →
            (ir.nodesIR.get ⟨j, hj⟩).2.typeN = kv) ∧
      (∀ e ∈ ir.nodesIR,
        (isPortKind e.2.typeN = true →
          (e.1, (⟨e.2.typeN, e.2.attributes⟩ : PortTypeEntry)) ∈ ir.portTypes) ∧
        (isPortKind e.2.typeN = false →
          (e.1, (⟨e.2.typeN, e.2.attributes⟩ : PortTypeEntry)) ∈ ir.nodeTypes)) ∧
      (∀ e ∈ ir.portTypes, isPortKind e.2.signalType = true) ∧
      (∀ e ∈ ir.nodeTypes, isPortKind e.2.signalType = false) ∧
      ir.portTypes.length + ir.nodeTypes.length = ir.nodesIR.length ∧
      (∀ j (hj : j < ir.nodesIR.length) (hj2 : j < s.dg.nodes.length)
          (k : String) (a : Attr),
        attrLookup (s.dg.nodes.get ⟨j, hj2⟩).2 k = some a → a.isVar = false →
        k ∉ nodeWriteKeys m → k ≠ "id" →
        attrLookup (ir.nodesIR.get ⟨j, hj⟩).2.attributes k = some a) ∧
      (∀ j (hj : j < ir.connections.length) (hj2 : j < s.dg.edges.length)
          (k : String) (a : Attr),
        attrLookup (s.dg.edges.get ⟨j, hj2⟩).2 k = some a → a.isVar = false →
        k ∉ linkWriteKeys m →
        k ≠ "port_from" → k ≠ "port_to" → k ≠ "source" → k ≠ "target" →
        attrLookup (ir.connections.get ⟨j, hj⟩).2.attributes k = some a) ∧
      (∀ v ∈ m, ∀ j (hj : j < ir.nodesIR.length) (hj2 : j < s.dg.nodes.length),
        (s.dg.nodes.get ⟨j, hj2⟩).1 = (pySplit v.1).headD "" →
        ∃ lb ub : ℚ, lb ≤ ub ∧
          attrLookup (ir.nodesIR.get ⟨j, hj⟩).2.attributes (wkeyN v) =
            some (Attr.interval lb ub)) ∧
      (∀ v ∈ m, ∀ j (hj : j < ir.connections.length) (hj2 : j < s.dg.edges.length),
        (s.dg.edges.get ⟨j, hj2⟩).1.1 = (pySplit v.1).headD "" →
        (s.dg.edges.get ⟨j, hj2⟩).1.2 = (pySplit v.1).getD 1 "" →
        ∃ lb ub : ℚ, lb ≤ ub ∧
          attrLookup (ir.connections.get ⟨j, hj⟩).2.attributes (wkeyL v) =
            some (Attr.interval lb ub)) ∧
      (∀ j (hj : j < ir.nodesIR.length) (hj2 : j < s.dg.nodes.length),
        ∀ p ∈ (ir.nodesIR.get ⟨j, hj⟩).2.attributes,
          (p ∈ (s.dg.nodes.get ⟨j, hj2⟩).2 ∨ p.1 = "id" ∨
            ∃ lb ub : ℚ, lb ≤ ub ∧ p.2 = Attr.interval lb ub) ∧
          p.2.isVar = false) ∧
      (∀ j (hj : j < ir.connections.length) (hj2 : j < s.dg.edges.length),
        ∀ p ∈ (ir.connections.get ⟨j, hj⟩).2.attributes,
          (p ∈ (s.dg.edges.get ⟨j, hj2⟩).2 ∨
            ∃ lb ub : ℚ, lb ≤ ub ∧ p.2 = Attr.interval lb ub) ∧
          p.2.isVar = false) := by
  have hok : ∀ d ∈ (nxNodeList s.dg).map (applyVars condN wkeyN m),
      (attrLookup d "kind").isSome = true ∧ (attrLookup d "id").isSome = true := by
    intro d hd
    rcases List.mem_map.mp hd with ⟨d0, hd0, rfl⟩
    rcases List.mem_map.mp hd0 with ⟨p, hp, rfl⟩
    constructor
    · rw [lookup_projected_kind m p.2 p.1 hkindw]
      exact hkind p hp
    · rw [lookup_projected_id m p.2 p.1 hidw]
      rfl
  refine ⟨⟨"Json Data", [],
      psF 0 ((nxNodeList s.dg).map (applyVars condN wkeyN m)),
      ntsF 0 ((nxNodeList s.dg).map (applyVars condN wkeyN m)),
      [],
      nsF 0 ((nxNodeList s.dg).map (applyVars condN wkeyN m)),
      buildConnections ((nxLinkList s.dg).map (applyVars condL wkeyL m)),
      [("directed", Attr.val (PVal.bool true)),
        ("multigraph", Attr.val (PVal.bool false)), ("graph", Attr.pydict [])]⟩,
    ?_, ?_, ?_, ?_, ?_, ?_, ?_, ?_, ?_, ?_, ?_, ?_, ?_, ?_, ?_, ?_, ?_⟩
  · unfold Schematic.to_json
    rw [hsolve]
    dsimp only
    rw [projectModel_eq m (nxLinkList s.dg) (nxNodeList s.dg) hparts]
    dsimp only
    rw [buildNodes_eq ((nxNodeList s.dg).map (applyVars condN wkeyN m)) 0 hok]
  · dsimp only
    simp [buildConnections_length, nxLinkList]
  · dsimp only
    intro j hj
    have hj2 : j < ((nxLinkList s.dg).map (applyVars condL wkeyL m)).length := by
      simpa [buildConnections_length] using hj
    rw [buildConnections_get _ j hj hj2]
  · dsimp only
    intro j hj hj2
    have hjl : j < ((nxLinkList s.dg).map (applyVars condL wkeyL m)).length := by
      simpa [buildConnections_length] using hj
    rw [buildConnections_get _ j hj hjl, projected_link_get s.dg m j hjl hj2]
    dsimp only [connOf]
    constructor
    · exact lookup_projected_source m _ _ _ hsrcw
    · exact lookup_projected_target m _ _ _ htgtw
  · dsimp only
    simp [nsF_length, nxNodeList]
  · dsimp only
    intro j hj
    have hj2 : j < ((nxNodeList s.dg).map (applyVars condN wkeyN m)).length := by
      simpa [nsF_length] using hj
    rw [nsF_get _ j hj hj2]
  · dsimp only
    intro j hj hj2
    have hjn : j < ((nxNodeList s.dg).map (applyVars condN wkeyN m)).length := by
      simpa [nsF_length] using hj
    rw [nsF_get _ j hj hjn, projected_node_get s.dg m j hjn hj2]
    constructor
    · dsimp only [nodeEntryOf]
      rw [lookup_projected_id m _ _ hidw]
      rfl
    · intro kv hkv
      dsimp only [nodeEntryOf]
      rw [lookup_projected_kind m _ _ hkindw, hkv]
      rfl
  · dsimp only
    intro e he
    constructor
    · intro hpk
      exact List.mem_filterMap.mpr ⟨e, he, by rw [if_pos hpk]⟩
    · intro hpk
      exact List.mem_filterMap.mpr ⟨e, he, by rw [if_neg (by simp [hpk])]⟩
  · dsimp only
    intro e he
    rcases List.mem_filterMap.mp he with ⟨a, _, hfa⟩
    by_cases hpk : isPortKind a.2.typeN = true
    · rw [if_pos hpk] at hfa
      injection hfa with h
      subst h
      exact hpk
    · rw [if_neg hpk] at hfa
      exact absurd hfa (by simp)
  · dsimp only
    intro e he
    rcases List.mem_filterMap.mp he with ⟨a, _, hfa⟩
    by_cases hpk : isPortKind a.2.typeN = true
    · rw [if_pos hpk] at hfa
      exact absurd hfa (by simp)
    · rw [if_neg hpk] at hfa
      injection hfa with h
      subst h
      rw [Bool.not_eq_true] at hpk
      exact hpk
  · dsimp only
    exact length_filterMap_ite (fun e => isPortKind e.2.typeN)
      (fun e => (e.1, (⟨e.2.typeN, e.2.attributes⟩ : PortTypeEntry)))
      (fun e => (e.1, (⟨e.2.typeN, e.2.attributes⟩ : PortTypeEntry)))
      (nsF 0 ((nxNodeList s.dg).map (applyVars condN wkeyN m)))
  · dsimp only
    intro j hj hj2 k a hka hvar hkw hkid
    have hjn : j < ((nxNodeList s.dg).map (applyVars condN wkeyN m)).length := by
      simpa [nsF_length] using hj
    rw [nsF_get _ j hj hjn, projected_node_get s.dg m j hjn hj2]
    dsimp only [nodeEntryOf, nodeEntryAttrs]
    apply attrLookup_filter_stat
    · rw [attrLookup_applyVars_notin condN wkeyN m _ _ (ne_wkey_of_notin hkw)]
      rw [attrLookup_attrSet_ne _ _ _ _ hkid]
      exact hka
    · dsimp only
      rw [hvar]
      rfl
  · dsimp only
    intro j hj hj2 k a hka hvar hkw hpf hpt hsrc htgt
    have hjl : j < ((nxLinkList s.dg).map (applyVars condL wkeyL m)).length := by
      simpa [buildConnections_length] using hj
    rw [buildConnections_get _ j hj hjl, projected_link_get s.dg m j hjl hj2]
    dsimp only [connOf, connAttrs]
    apply attrLookup_filter_stat
    · rw [attrLookup_applyVars_notin condL wkeyL m _ _ (ne_wkey_of_notin hkw)]
      rw [attrLookup_attrSet_ne _ _ _ _ htgt, attrLookup_attrSet_ne _ _ _ _ hsrc]
      exact hka
    · dsimp only
      have hb : ∀ y : String, k ≠ y → (k == y) = false :=
        fun y hy => beq_eq_false_iff_ne.mpr hy
      rw [hb _ hpf, hb _ hpt, hb _ hsrc, hb _ htgt, hvar]
      rfl
  · dsimp only
    intro v hv j hj hj2 hname
    have hjn : j < ((nxNodeList s.dg).map (applyVars condN wkeyN m)).length := by
      simpa [nsF_length] using hj
    rw [nsF_get _ j hj hjn, projected_node_get s.dg m j hjn hj2]
    dsimp only [nodeEntryOf, nodeEntryAttrs]
    have hstable : ∀ w ∈ m, ∀ d2 : AttrDict,
        condN v (applyVar condN wkeyN w d2) = condN v d2 := by
      intro w hw d2
      rw [condN, condN,
        attrLookup_applyVar_ne condN wkeyN w d2 "id" (ne_wkey_of_notin hidw w hw)]
    have hc : condN v (attrSet (s.dg.nodes.get ⟨j, hj2⟩).2 "id"
        (Attr.val (PVal.str (s.dg.nodes.get ⟨j, hj2⟩).1))) = true := by
      rw [condN, attrLookup_attrSet_self]
      dsimp only [attrEqStr]
      rw [← hname]
      exact decide_eq_true rfl
    rcases applyVars_solved condN wkeyN v m _ hv hstable hc with ⟨w, hw, hlook⟩
    refine ⟨w.2.1, w.2.2, hub w hw, ?_⟩
    apply attrLookup_filter_stat
    · exact hlook
    · rfl
  · dsimp only
    intro v hv j hj hj2 hfromn hton
    have hjl : j < ((nxLinkList s.dg).map (applyVars condL wkeyL m)).length := by
      simpa [buildConnections_length] using hj
    rw [buildConnections_get _ j hj hjl, projected_link_get s.dg m j hjl hj2]
    dsimp only [connOf, connAttrs]
    have hstable : ∀ w ∈ m, ∀ d2 : AttrDict,
        condL v (applyVar condL wkeyL w d2) = condL v d2 := by
      intro w hw d2
      rw [condL, condL,
        attrLookup_applyVar_ne condL wkeyL w d2 "source" (ne_wkey_of_notin hsrcw w hw),
        attrLookup_applyVar_ne condL wkeyL w d2 "target" (ne_wkey_of_notin htgtw w hw)]
    have hc : condL v (attrSet (attrSet (s.dg.edges.get ⟨j, hj2⟩).2 "source"
        (Attr.val (PVal.str (s.dg.edges.get ⟨j, hj2⟩).1.1))) "target"
        (Attr.val (PVal.str (s.dg.edges.get ⟨j, hj2⟩).1.2))) = true := by
      rw [condL]
      rw [attrLookup_attrSet_ne _ _ _ _ (by simp), attrLookup_attrSet_self,
        attrLookup_attrSet_self]
      dsimp only [attrEqStr]
      rw [← hfromn, ← hton]
      simp
    rcases applyVars_solved condL wkeyL v m _ hv hstable hc with ⟨w, hw, hlook⟩
    refine ⟨w.2.1, w.2.2, hub w hw, ?_⟩
    apply attrLookup_filter_stat
    · exact hlook
    · dsimp only
      have hself : wkeyL v ∈ linkWriteKeys m := List.mem_map_of_mem wkeyL hv
      have hne4 : ∀ y : String, y ∉ linkWriteKeys m → (wkeyL v == y) = false := by
        intro y hy
        exact beq_eq_false_iff_ne.mpr (fun he => hy (he ▸ hself))
      rw [hne4 _ hpfw, hne4 _ hptw, hne4 _ hsrcw, hne4 _ htgtw]
      rfl
  · dsimp only
    intro j hj hj2 p hp
    have hjn : j < ((nxNodeList s.dg).map (applyVars condN wkeyN m)).length := by
      simpa [nsF_length] using hj
    rw [nsF_get _ j hj hjn, projected_node_get s.dg m j hjn hj2] at hp
    dsimp only [nodeEntryOf, nodeEntryAttrs] at hp
    have hp2 := List.mem_filter.mp hp
    have hvarf : p.2.isVar = false := by
      have h2 : (!p.2.isVar) = true := hp2.2
      rwa [Bool.not_eq_true'] at h2
    refine ⟨?_, hvarf⟩
    rcases mem_applyVars condN wkeyN m _ p hp2.1 with h | ⟨v, hv, hpv⟩
    · rcases mem_attrSet h with h2 | h2
      · exact Or.inl h2
      · exact Or.inr (Or.inl (by rw [h2]))
    · exact Or.inr (Or.inr ⟨v.2.1, v.2.2, hub v hv, by rw [hpv]⟩)
  · dsimp only
    intro j hj hj2 p hp
    have hjl : j < ((nxLinkList s.dg).map (applyVars condL wkeyL m)).length := by
      simpa [buildConnections_length] using hj
    rw [buildConnections_get _ j hj hjl, projected_link_get s.dg m j hjl hj2] at hp
    dsimp only [connOf, connAttrs] at hp
    have hp2 := List.mem_filter.mp hp
    have hpred : (!(p.1 == "port_from" || p.1 == "port_to" || p.1 == "source" ||
        p.1 == "target") && !p.2.isVar) = true := hp2.2
    have hvarf : p.2.isVar = false := by
      have h2 : (!p.2.isVar) = true := by
        have hcopy := hpred
        rw [Bool.and_eq_true] at hcopy
        exact hcopy.2
      rwa [Bool.not_eq_true'] at h2
    refine ⟨?_, hvarf⟩
    rcases mem_applyVars condL wkeyL m _ p hp2.1 with h | ⟨v, hv, hpv⟩
    · rcases mem_attrSet h with h2 | h2
      · rcases mem_attrSet h2 with h3 | h3
        · exact Or.inl h3
        · rw [h3] at hpred
          simp at hpred
      · rw [h2] at hpred
        simp at hpred
    · exact Or.inr ⟨v.2.1, v.2.2, hub v hv, by rw [hpv]⟩

/-- A backend returning one solved link variable and one solved node
variable named by the program convention, for the C8 witness. -/
def csm2 : List Expr → Option DrealModel :=
  fun _ => some [("a_b_length", 3, 4), ("a_pressure", 1, 2)]

/-- Witness for C8 on the two-port, one-channel fixture. -/
theorem C8_witness :
    ∃ ir : ManifoldIR,
      Schematic.to_json tmE csm2 s3w =
        ((Schematic.solve tmE csm2 s3w false).1, Except.ok ir) ∧
      ir.connections.length = s3w.dg.edges.length ∧
      ir.nodesIR.length = s3w.dg.nodes.length ∧
      ir.portTypes.length + ir.nodeTypes.length = ir.nodesIR.length := by
  rcases C8_ir_structure tmE csm2 s3w (Schematic.solve tmE csm2 s3w false).1
      [("a_b_length", 3, 4), ("a_pressure", 1, 2)] rfl
      (by decide) (by decide) (by decide) (by decide) (by decide) (by decide)
      (by decide) (by decide) (by decide) with
    ⟨ir, h1, h2, h3, h4, h5, h6, h7, h8, h9, h10, h11, h12, h13, h14, h15, h16, h17⟩
  exact ⟨ir, h1, h2, h5, h11⟩

end PyManifold
